import Mathlib

/-!
Verification of the SP 800-90A Hash_DRBG core found in
`src/icc/fips-prng/SP800-90HashData.c`.

Bytes are modelled as `List Nat`, with each element reduced mod 256 wherever
the C code reads it through an `unsigned char`.  The digest primitive is an
abstract parameter `H : List Nat → List Nat`; theorems that need it add the
hypothesis that every digest has the profile's fixed length.

Two embeddings are given:
* a pure one (`Hash_df`, `SHA_Instantiate`, `SHA_ReSeed`, `SHA_Generate`)
  modelling the behaviour when every digest primitive call succeeds, which is
  the situation all the functional-correctness claims assume; and
* a fallible one (`Hash_dfF`, `SHA_InstantiateF`, `SHA_ReSeedF`,
  `SHA_GenerateF`) in which every `EVP_DigestInit` / `Update` / `Final` call
  consumes one answer from an oracle `O : Nat → Bool`, used for the
  error-handling and scratch-buffer claims.
-/

namespace SP80090

/-- Ceiling division, `⌈a / b⌉`. -/
def ceilDiv (a b : Nat) : Nat := (a + b - 1) / b

/-- `uint2BS` from the utils library (not under `src/`), as the spec fixes it:
a 32-bit unsigned integer rendered as 4 big-endian bytes. -/
def uint2BS (n : Nat) : List Nat :=
  [n / 2 ^ 24 % 256, n / 2 ^ 16 % 256, n / 2 ^ 8 % 256, n % 256]

/-- Value of a byte string read as a big-endian integer (each cell read
through `unsigned char`, hence the `% 256`). -/
def BEval (bs : List Nat) : Nat := bs.foldl (fun a b => a * 256 + b % 256) 0

/-- Big-endian encoding of `n mod 2^(8*len)` on exactly `len` bytes. -/
def BEbytes : Nat → Nat → List Nat
  | 0, _ => []
  | l + 1, n => BEbytes l (n / 256) ++ [n % 256]

/-- Modelled from the spec: `BigEndianAdd` (`Add` in the utils library, not
under `src/`): `dst = (a + b) mod 2^(8·a_len)` with both operands big-endian
and the addend `b` tail-aligned; the result keeps `a`'s length. -/
def Add (a b : List Nat) : List Nat := BEbytes a.length (BEval a + BEval b)

/-- A `DS` byte stack: an ordered sequence of borrowed byte fragments. -/
abbrev DS : Type := List (List Nat)

/-- `DS_Init`: the empty stack. -/
def DS_empty : DS := []

/-- `DS_Append`: add a fragment at the tail. -/
def DS_Append (ds : DS) (frag : List Nat) : DS := ds ++ [frag]

/-- `DS_Insert`: prepend a fragment at the head. -/
def DS_Insert (ds : DS) (frag : List Nat) : DS := frag :: ds

/-- The byte string a full traversal of the stack feeds to the digest. -/
def DS_data (ds : DS) : List Nat := ds.flatten

/-! ## Pure embedding (every digest call succeeds) -/

/-- The `while(outl > 0)` loop of `Hash_df`
(src/icc/fips-prng/SP800-90HashData.c:61-90).  Each round hashes
`counter || no_of_bits || input`; `counter` is an `unsigned char`, hence the
`% 256`.  `j = min outl digestL` bytes of the digest are copied out.  The
fuel equals the initial `outl`; it never runs out because each round copies
at least one byte whenever the digest is non-empty. -/
def hashDfLoop (H : List Nat → List Nat) (pfx S : List Nat) :
    Nat → Nat → Nat → List Nat
  | 0, _, _ => []
  | fuel + 1, outl, counter =>
    if outl = 0 then []
    else
      let d := H ((counter % 256) :: (pfx ++ S))
      let j := min outl d.length
      d.take j ++ hashDfLoop H pfx S fuel (outl - j) (counter + 1)

/-- `Hash_df` (src/icc/fips-prng/SP800-90HashData.c:42-96), output bytes only:
prepend `no_of_bits = outl*8` (4 bytes big-endian) and the one-octet counter
starting at 1 to the input stack, then emit digest blocks until `outl` bytes
are produced. -/
def Hash_df (H : List Nat → List Nat) (ds : DS) (outl : Nat) : List Nat :=
  hashDfLoop H (uint2BS (outl * 8)) (DS_data ds) outl outl 1

/-- `SHA_Instantiate` (src/icc/fips-prng/SP800-90HashData.c:108-139), the new
`(V, C)` pair: `V = Hash_df(ein || nonce || person)`,
`C = Hash_df(0x00 || V)`. -/
def SHA_Instantiate (H : List Nat → List Nat) (seedlen : Nat)
    (ein nonce person : List Nat) : List Nat × List Nat :=
  let seedDS := DS_Append (DS_Append (DS_Append DS_empty ein) nonce) person
  let V := Hash_df H seedDS seedlen
  let seedDS2 := DS_Append (DS_Append DS_empty [0x00]) V
  let C := Hash_df H seedDS2 seedlen
  (V, C)

/-- `SHA_ReSeed` (src/icc/fips-prng/SP800-90HashData.c:149-182), the new
`(V, C)` pair.  The first `Hash_df` lands in `C` (scratch, since `V` is also
an input), is copied to `V`, and `C` is then recomputed from the new `V`. -/
def SHA_ReSeed (H : List Nat → List Nat) (seedlen : Nat)
    (V ein adata : List Nat) : List Nat × List Nat :=
  let seedDS :=
    DS_Append (DS_Append (DS_Append (DS_Append DS_empty [0x01]) V) ein) adata
  let Cscratch := Hash_df H seedDS seedlen
  let V1 := Cscratch
  let seedDS2 := DS_Append (DS_Append DS_empty [0x00]) V1
  let C1 := Hash_df H seedDS2 seedlen
  (V1, C1)

/-- The additional-input mixing step of `SHA_Generate`
(src/icc/fips-prng/SP800-90HashData.c:203-246): performed only when
`NULL != adata && 0 != adatal`.  `w = Hash(0x02 || V || adata)` lands in the
scratch `T`, and `V = (V + w) mod 2^(8·seedlen)` with `w` read tail-aligned as
the first `OBL` bytes of `T`.  Returns the new `(V, T)`. -/
def genMix (H : List Nat → List Nat) (OBL : Nat) (V T : List Nat)
    (adata : Option (List Nat)) (adatal : Nat) : List Nat × List Nat :=
  match adata with
  | none => (V, T)
  | some ad =>
    if adatal ≠ 0 then
      let w := H ([0x02] ++ V ++ ad.take adatal)
      let T1 := w ++ T.drop w.length
      (Add V (T1.take OBL), T1)
    else (V, T)

/-- The Hashgen `while(blen > 0)` loop of `SHA_Generate`
(src/icc/fips-prng/SP800-90HashData.c:252-281): hash the running `data`
value into the scratch `eBuf`, increment `data` by the single octet `C01`,
and copy out `min blen digestL` bytes.  The fuel equals the initial `blen`. -/
def hashgenLoop (H : List Nat → List Nat) : Nat → List Nat → Nat → List Nat
  | 0, _, _ => []
  | fuel + 1, data, blen =>
    if blen = 0 then []
    else
      let e := H data
      let data1 := Add data [0x01]
      let j := min blen e.length
      e.take j ++ hashgenLoop H fuel data1 (blen - j)

/-- Modelled from the spec: the reseed counter bytes `pctx->CallCount.c`
(maintained by the outer dispatch in SP800-90.c, not under `src/`) are the
4-byte big-endian rendering of the 32-bit reseed counter. -/
def reseedCtrBytes (rc : Nat) : List Nat := uint2BS rc

/-- `SHA_Generate` (src/icc/fips-prng/SP800-90HashData.c:194-325) under the
assumption that every digest call succeeds: returns `(out, V')`.  After the
optional additional-input mixing, Hashgen runs on a copy of `V` held in `T`;
then `T` is zeroed (`memset(T,0,seedlen)`), `H = Hash(0x03 || V)` is written
into `T`, and `V` accumulates `H` (tail-aligned to `OBL` bytes), `C`
(full width) and the reseed-counter bytes (4-byte tail-aligned). -/
def SHA_Generate (H : List Nat → List Nat) (seedlen OBL : Nat)
    (V C T : List Nat) (rc : Nat)
    (adata : Option (List Nat)) (adatal : Nat) (blen : Nat) :
    List Nat × List Nat :=
  let VT := genMix H OBL V T adata adatal
  let V1 := VT.1
  let T2 := V1 ++ VT.2.drop V1.length
  let out := hashgenLoop H blen T2 blen
  let T3 : List Nat := List.replicate seedlen 0
  let Hb := H ([0x03] ++ V1)
  let T4 := Hb ++ T3.drop Hb.length
  let V2 := Add V1 (T4.take OBL)
  let V3 := Add V2 C
  let V4 := Add V3 (reseedCtrBytes rc)
  (out, V4)

/-- Abstract block-emission loop (a proof device shared by the `Hash_df`
loop and the Hashgen loop): each round emits `min outl (f st).length` bytes
of `f st` and steps the state by `g`. -/
def emitLoop {σ : Type} (f : σ → List Nat) (g : σ → σ) :
    Nat → σ → Nat → List Nat
  | 0, _, _ => []
  | fuel + 1, st, outl =>
    if outl = 0 then []
    else
      let d := f st
      let j := min outl d.length
      d.take j ++ emitLoop f g fuel (g st) (outl - j)

/-! ## Fallible embedding

Digest primitive calls can fail.  Every `EVP_DigestInit`, `EVP_DigestUpdate`
and `EVP_DigestFinal` call consumes one answer from an oracle
`O : Nat → Bool` at a running index `k`; `false` means the call returned
non-success.  `EVP_MD_CTX_reset` is void and consumes nothing. -/

/-- The instance state constants of `SP800_90STATE` (SP800-90.h). -/
inductive SP800_90STATE where
  | SP800_90UNINIT
  | SP800_90INIT
  | SP800_90RUN
  | SP800_90RESEED
  | SP800_90ERROR
  deriving DecidableEq

/-- The fields of `SP800_90PRNG_Data_t` the hash engine touches: the working
state `V`, the constant `C`, the seedlen-wide scratch `T`, the block-wide
scratch `eBuf`, whether a digest context is allocated, the state code and
the diagnostic string. -/
structure PRNGData where
  V : List Nat
  C : List Nat
  T : List Nat
  eBuf : List Nat
  mdCtx : Bool
  state : SP800_90STATE
  error_reason : String
  deriving DecidableEq

/-- Writing `w` bytes at the start of buffer `dst` (a partial `memcpy`). -/
def applyBuf (dst w : List Nat) : List Nat := w ++ dst.drop w.length

/-- The fragments actually extracted by `while(in->total) DS_Extract(...)`:
traversal stops once the remaining byte total reaches zero, so a maximal
trailing run of empty fragments is never extracted. -/
def dsExtractList (ds : DS) : DS :=
  (ds.reverse.dropWhile (fun f => f.length == 0)).reverse

/-- One `EVP_DigestUpdate` call per extracted fragment; a failing call sets
the site's error message (`Hash_df` reuses the Init message for its update
failures, exactly as the source does).  Returns the next oracle index and
the error, if any. -/
def updatesF (O : Nat → Bool) (msg : String) :
    List (List Nat) → Nat → Nat × Option String
  | [], k => (k, none)
  | _ :: rest, k => if O k then updatesF O msg rest (k + 1) else (k + 1, some msg)

/-- Result of one full init/update*/final digest computation. -/
inductive HashCallRes where
  | ok (digest : List Nat) (k : Nat)
  | fail (msg : String) (k : Nat)
  deriving DecidableEq

/-- One `EVP_DigestInit` / `EVP_DigestUpdate`* / `EVP_DigestFinal` sequence;
`updMsg` is the diagnostic the call site stores when an update fails (the
sites differ in that string only). -/
def hashCallF (O : Nat → Bool) (H : List Nat → List Nat) (updMsg : String)
    (frags : List (List Nat)) (k : Nat) : HashCallRes :=
  if O k then
    match updatesF O updMsg frags (k + 1) with
    | (k1, some m) => .fail m k1
    | (k1, none) =>
      if O k1 then .ok (H frags.flatten) (k1 + 1)
      else .fail "Digest Final failed" (k1 + 1)
  else .fail "Digest Init failed" (k + 1)

/-- One digest computation as `SHA_Generate` performs it
(src/icc/fips-prng/SP800-90HashData.c:207-240, 253-273, 287-311):
`EVP_DigestInit`, one `EVP_DigestUpdate` per fragment, `EVP_DigestFinal`. -/
def doHashF (O : Nat → Bool) (H : List Nat → List Nat)
    (frags : List (List Nat)) (k : Nat) : HashCallRes :=
  hashCallF O H "Digest Update failed" frags k

/-- One digest computation as the `Hash_df` loop performs it
(src/icc/fips-prng/SP800-90HashData.c:62-83).  The update-failure message is
the Init one: the source stores `ERRAT("Digest Init failed")` at line 72. -/
def dfHashOnce (O : Nat → Bool) (H : List Nat → List Nat)
    (frags : List (List Nat)) (k : Nat) : HashCallRes :=
  hashCallF O H "Digest Init failed" frags k

/-- Result of a fallible `Hash_df` run: bytes written to `out` so far, the
scratch `T`, the next oracle index, the error (if any) and the length `l`
returned by the last `EVP_DigestFinal` (`digestL` in the source, `0` before
the first block). -/
structure DfRes where
  out : List Nat
  T : List Nat
  k : Nat
  err : Option String
  digestL : Nat
  deriving DecidableEq

/-- The fallible `Hash_df` loop.  Each round hashes the extracted fragments
`counter || no_of_bits || input`, writes the digest into the first bytes of
`T`, and copies `min outl digestL` bytes out; any failing primitive call
returns immediately (after `EVP_MD_CTX_reset`, which touches nothing we
model) without clearing `T`. -/
def Hash_dfFLoop (O : Nat → Bool) (H : List Nat → List Nat)
    (pfx : List Nat) (ds : DS) :
    Nat → Nat → Nat → List Nat → Nat → Nat → DfRes
  | 0, _, _, T, k, dL => ⟨[], T, k, none, dL⟩
  | fuel + 1, outl, counter, T, k, dL =>
    if outl = 0 then ⟨[], T, k, none, dL⟩
    else
      match dfHashOnce O H (dsExtractList ([counter % 256] :: pfx :: ds)) k with
      | .fail m k1 => ⟨[], T, k1, some m, dL⟩
      | .ok d k1 =>
        let T1 := applyBuf T d
        let j := min outl d.length
        let r := Hash_dfFLoop O H pfx ds fuel (outl - j) (counter + 1) T1 k1 d.length
        ⟨d.take j ++ r.out, r.T, r.k, r.err, r.digestL⟩

/-- Fallible `Hash_df` (src/icc/fips-prng/SP800-90HashData.c:42-96).  On the
normal completion path the final `memset(pctx->T, 0, digestL)` zeroes the
first `digestL` bytes of `T`; the failure paths return `T` as it stood. -/
def Hash_dfF (O : Nat → Bool) (H : List Nat → List Nat)
    (ds : DS) (outl : Nat) (T0 : List Nat) (k : Nat) : DfRes :=
  let r := Hash_dfFLoop O H (uint2BS (outl * 8)) ds outl outl 1 T0 k 0
  match r.err with
  | none => ⟨r.out, List.replicate r.digestL 0 ++ r.T.drop r.digestL, r.k, none, r.digestL⟩
  | some _ => r

/-- Result of the fallible Hashgen loop. -/
structure HgRes where
  out : List Nat
  T : List Nat
  eBuf : List Nat
  k : Nat
  err : Option String
  deriving DecidableEq

/-- The fallible Hashgen loop of `SHA_Generate`
(src/icc/fips-prng/SP800-90HashData.c:252-281): hash `T` into `eBuf`,
increment `T`, copy out `min blen digestL` bytes; a failing call returns
immediately with the bytes already emitted. -/
def hashgenF (O : Nat → Bool) (H : List Nat → List Nat) :
    Nat → List Nat → List Nat → Nat → Nat → HgRes
  | 0, T, eB, _, k => ⟨[], T, eB, k, none⟩
  | fuel + 1, T, eB, blen, k =>
    if blen = 0 then ⟨[], T, eB, k, none⟩
    else
      match doHashF O H [T] k with
      | .fail m k1 => ⟨[], T, eB, k1, some m⟩
      | .ok e k1 =>
        let eB1 := applyBuf eB e
        let T1 := Add T [0x01]
        let j := min blen e.length
        let r := hashgenF O H fuel T1 eB1 (blen - j) k1
        ⟨e.take j ++ r.out, r.T, r.eBuf, r.k, r.err⟩

/-- Fallible `SHA_Instantiate` (src/icc/fips-prng/SP800-90HashData.c:108-139):
`memset(V,0,seedlen)`, look the digest up by name (`mdFound` is whether
`EVP_get_digestbyname` succeeded), then the two `Hash_df` calls.  `Hash_df`
writes its own state/error fields; the second call runs even if the first
failed, exactly as in the source.  Returns the new context, the returned
state code and the next oracle index. -/
def SHA_InstantiateF (O : Nat → Bool) (H : List Nat → List Nat)
    (seedlen : Nat) (mdFound : Bool) (ein nonce person : List Nat)
    (p : PRNGData) (k : Nat) : PRNGData × SP800_90STATE × Nat :=
  let p0 := { p with V := List.replicate seedlen 0 }
  if mdFound then
    let p1 := { p0 with mdCtx := true }
    let r1 := Hash_dfF O H [ein, nonce, person] seedlen p1.T k
    let p2 := { p1 with
                V := applyBuf p1.V r1.out
                T := r1.T
                state := if r1.err.isSome then .SP800_90ERROR else p1.state
                error_reason := r1.err.getD p1.error_reason }
    let r2 := Hash_dfF O H [[0x00], p2.V] seedlen p2.T r1.k
    let p3 := { p2 with
                C := applyBuf p2.C r2.out
                T := r2.T
                state := if r2.err.isSome then .SP800_90ERROR else p2.state
                error_reason := r2.err.getD p2.error_reason }
    (p3, p3.state, r2.k)
  else
    let p1 := { p0 with
                state := .SP800_90ERROR
                error_reason := "Could not obtain digest" }
    (p1, p1.state, k)

/-- Fallible `SHA_ReSeed` (src/icc/fips-prng/SP800-90HashData.c:149-182):
`Hash_df(0x01 || V || ein || adata)` into the scratch `C`, unconditional
`memcpy(V, C, seedlen)`, then `Hash_df(0x00 || V)` into `C`. -/
def SHA_ReSeedF (O : Nat → Bool) (H : List Nat → List Nat)
    (seedlen : Nat) (ein adata : List Nat) (p : PRNGData) (k : Nat) :
    PRNGData × SP800_90STATE × Nat :=
  let r1 := Hash_dfF O H [[0x01], p.V, ein, adata] seedlen p.T k
  let p1 := { p with
              C := applyBuf p.C r1.out
              T := r1.T
              state := if r1.err.isSome then .SP800_90ERROR else p.state
              error_reason := r1.err.getD p.error_reason }
  let p2 := { p1 with V := applyBuf p1.V (p1.C.take seedlen) }
  let r2 := Hash_dfF O H [[0x00], p2.V] seedlen p2.T r1.k
  let p3 := { p2 with
              C := applyBuf p2.C r2.out
              T := r2.T
              state := if r2.err.isSome then .SP800_90ERROR else p2.state
              error_reason := r2.err.getD p2.error_reason }
  (p3, p3.state, r2.k)

/-- The tail of fallible `SHA_Generate` after the optional additional-input
mixing (src/icc/fips-prng/SP800-90HashData.c:250-324): `memcpy(T,V,seedlen)`,
the Hashgen loop, `memset(T,0,seedlen)`, `H = Hash(0x03 || V)` into `T`, and
the three `Add`s, with a final `memset(T,0,seedlen)` between `+C` and the
reseed-counter add. -/
def SHA_GenerateTail (O : Nat → Bool) (H : List Nat → List Nat)
    (seedlen OBL : Nat) (rcBytes : List Nat) (blen : Nat)
    (p : PRNGData) (k : Nat) : List Nat × PRNGData × SP800_90STATE × Nat :=
  let hg := hashgenF O H blen (applyBuf p.T p.V) p.eBuf blen k
  match hg.err with
  | some m =>
    let p2 := { p with
                T := hg.T
                eBuf := hg.eBuf
                state := .SP800_90ERROR
                error_reason := m }
    (hg.out, p2, p2.state, hg.k)
  | none =>
    let p2 := { p with
                T := List.replicate seedlen 0 ++ hg.T.drop seedlen
                eBuf := hg.eBuf }
    match doHashF O H [[0x03], p2.V] hg.k with
    | .fail m k3 =>
      let p3 := { p2 with
                  state := .SP800_90ERROR
                  error_reason := m }
      (hg.out, p3, p3.state, k3)
    | .ok h k3 =>
      let T4 := applyBuf p2.T h
      let V2 := Add p2.V (T4.take OBL)
      let V3 := Add V2 p2.C
      let T5 := List.replicate seedlen 0 ++ T4.drop seedlen
      let V4 := Add V3 rcBytes
      let p3 := { p2 with V := V4, T := T5 }
      (hg.out, p3, p3.state, k3)

/-- Fallible `SHA_Generate` (src/icc/fips-prng/SP800-90HashData.c:194-325).
The additional-input digest runs only when `NULL != adata && 0 != adatal`;
its failure returns before any output is produced. -/
def SHA_GenerateF (O : Nat → Bool) (H : List Nat → List Nat)
    (seedlen OBL : Nat) (rcBytes : List Nat)
    (adata : Option (List Nat)) (adatal : Nat) (blen : Nat)
    (p : PRNGData) (k : Nat) : List Nat × PRNGData × SP800_90STATE × Nat :=
  match adata with
  | some ad =>
    if adatal ≠ 0 then
      match doHashF O H [[0x02], p.V, ad.take adatal] k with
      | .fail m k1 =>
        let p1 := { p with
                    state := .SP800_90ERROR
                    error_reason := m }
        ([], p1, p1.state, k1)
      | .ok w k1 =>
        let T1 := applyBuf p.T w
        SHA_GenerateTail O H seedlen OBL rcBytes blen
          { p with T := T1, V := Add p.V (T1.take OBL) } k1
    else SHA_GenerateTail O H seedlen OBL rcBytes blen p k
  | none => SHA_GenerateTail O H seedlen OBL rcBytes blen p k

/-- `SHA_Cleanup` (src/icc/fips-prng/SP800-90HashData.c:332-341): free the
digest context (the only allocated data) and return the current state.  It
touches none of the byte buffers and does not change the state field. -/
def SHA_Cleanup (p : PRNGData) : PRNGData × SP800_90STATE :=
  ({ p with mdCtx := false }, p.state)

/-- Modelled from the spec: the outer Uninstantiate dispatch (`Cln` in
SP800-90.c, which is not under `src/`): "Zero all state buffers, free the
digest context, set `mode = UNINITIALISED`."  It invokes the per-hash
cleanup method (`SHA_Cleanup`, which is in the source and frees the digest
context), then zeroes `V`, `C`, `T`, `eBuf` and resets the mode. -/
def Uninstantiate (p : PRNGData) : PRNGData :=
  let p1 := (SHA_Cleanup p).1
  { p1 with
    V := List.replicate p1.V.length 0
    C := List.replicate p1.C.length 0
    T := List.replicate p1.T.length 0
    eBuf := List.replicate p1.eBuf.length 0
    state := .SP800_90UNINIT }

/-- Some primitive call with oracle index in `[k0, k1)` failed. -/
def failedIn (O : Nat → Bool) (k0 k1 : Nat) : Prop :=
  ∃ i, k0 ≤ i ∧ i < k1 ∧ O i = false

/-! ## KAT data of the SHA-1 profile
(src/icc/fips-prng/SP800-90HashData.c:1267-1433) -/

/-- `NONE` (line 346): the shared empty buffer, `len = 0`. -/
def NONEBuf : List Nat := []

/-- `SHA1_112IntEin` (lines 1270-1276). -/
def SHA1_112IntEin : List Nat :=
  [0xdc, 0x10, 0x6a, 0xce, 0x9f, 0xf5, 0x7c, 0x68,
   0x13, 0x1e, 0xa2, 0xee, 0x75, 0xc6, 0x58, 0x5a]

/-- `SHA1_112IntNon` (lines 1277-1282). -/
def SHA1_112IntNon : List Nat :=
  [0x6a, 0x36, 0x0c, 0x6f, 0x7b, 0xd4, 0x60, 0x1e]

/-- `SHA1_112IntPer` (lines 1283-1289). -/
def SHA1_112IntPer : List Nat :=
  [0x6b, 0xd1, 0x58, 0x91, 0x56, 0x95, 0x25, 0x24,
   0xba, 0x1f, 0x9b, 0x14, 0x06, 0x59, 0xba, 0xf2]

/-- `SHA1_112Result` (lines 1291-1303), the uncommented, authoritative
64-byte expected output. -/
def SHA1_112Result : List Nat :=
  [0x36, 0x54, 0xd1, 0x94, 0xa7, 0x57, 0xd6, 0x29,
   0x3c, 0xcd, 0x30, 0x14, 0x39, 0xa2, 0xf6, 0x3e,
   0x81, 0xcb, 0xbb, 0x03, 0x1f, 0x6b, 0x47, 0x87,
   0x0f, 0xf0, 0xc4, 0x1c, 0xf1, 0x2a, 0xf6, 0x3f,
   0x1c, 0x8e, 0x4d, 0x25, 0xf4, 0x4b, 0x90, 0x9f,
   0x27, 0x6d, 0xd0, 0x92, 0x37, 0x3a, 0x20, 0xdb,
   0x2a, 0xd6, 0x68, 0x06, 0x52, 0xce, 0x9a, 0x87,
   0xba, 0x6e, 0x56, 0xea, 0xb2, 0x01, 0xcb, 0xec]

/-- `SHA1_128IntEin` (lines 1324-1330). -/
def SHA1_128IntEin : List Nat :=
  [0xb6, 0xda, 0x6d, 0xc2, 0xad, 0x08, 0xba, 0x10,
   0xf7, 0x8e, 0x6e, 0x83, 0x01, 0x57, 0x8a, 0x52]

/-- `SHA1_128IntNon` (lines 1331-1336); the last literal is `0xc` in the
source. -/
def SHA1_128IntNon : List Nat :=
  [0x47, 0xb4, 0xda, 0x6f, 0x90, 0x32, 0xaf, 0x0c]

/-- `SHA1_128GenEin` (lines 1337-1343). -/
def SHA1_128GenEin : List Nat :=
  [0x7b, 0xbb, 0x14, 0x85, 0x07, 0x4a, 0xf4, 0xd9,
   0x5a, 0xad, 0x86, 0x66, 0x3a, 0xc8, 0x8c, 0xe6]

/-- `SHA1_128Result` (lines 1344-1351), the uncommented 20-byte vector. -/
def SHA1_128Result : List Nat :=
  [0x97, 0x34, 0xed, 0x8a, 0xd4, 0x1a, 0x59, 0x6f,
   0x86, 0x38, 0x95, 0x72, 0xea, 0x7a, 0x77, 0x7b,
   0x08, 0xb3, 0x6e, 0x7f]

/-- One KAT strength slot: the 6-tuple laid out positionally as
`(ein, nonce, personalization, reseed_ein, generate_ein, expected)`. -/
structure KatSlot where
  ein : List Nat
  nonce : List Nat
  person : List Nat
  reseedEin : List Nat
  genEin : List Nat
  expected : List Nat
  deriving DecidableEq

/-- Strength slot 0 (112-bit) of `sha1PRNG` (lines 1400-1407): note the
personalization at position 2 and `NONE` at positions 3 and 4. -/
def sha1Kat0 : KatSlot :=
  ⟨SHA1_112IntEin, SHA1_112IntNon, SHA1_112IntPer, NONEBuf, NONEBuf,
   SHA1_112Result⟩

/-- Strength slot 1 (128-bit) of `sha1PRNG` (lines 1408-1415). -/
def sha1Kat1 : KatSlot :=
  ⟨SHA1_128IntEin, SHA1_128IntNon, NONEBuf, NONEBuf, SHA1_128GenEin,
   SHA1_128Result⟩

/-- An all-`NONE` placeholder slot (lines 1416-1431). -/
def katEmptySlot : KatSlot :=
  ⟨NONEBuf, NONEBuf, NONEBuf, NONEBuf, NONEBuf, NONEBuf⟩

/-- The numeric/profile fields of `SP800_90PRNG_t`. -/
structure Profile where
  seedlen : Nat
  maxNonce : Nat
  maxPers : Nat
  maxAAD : Nat
  maxBytesPerRequest : Nat
  maxReseed : Nat
  blockSize : Nat
  maxEntropy : Nat
  strengths : List Nat
  isFips : Bool
  kat : List KatSlot
  deriving DecidableEq

/-- `sha1PRNG` (src/icc/fips-prng/SP800-90HashData.c:1370-1433). -/
def sha1PRNG : Profile :=
  { seedlen := 440 / 8
    maxNonce := 2 ^ 27
    maxPers := 2 ^ 27
    maxAAD := 2 ^ 27
    maxBytesPerRequest := 2 ^ 11
    maxReseed := 0x00FFFFFF
    blockSize := 160 / 8
    maxEntropy := 2 ^ 27
    strengths := [112, 128, 0, 0]
    isFips := false
    kat := [sha1Kat0, sha1Kat1, katEmptySlot, katEmptySlot] }

/-! ## Spec-side definitions (transcribed from the spec's words, for the
refinement claims) -/

/-- The derivation function exactly as the spec words it: the concatenation
of `HASH(i || no_of_bits || S)` for `i = 1 .. ⌈L/digest_len⌉`, truncated to
`L` bytes, with `no_of_bits = L·8` as 32-bit big-endian. -/
def hashDf_spec (H : List Nat → List Nat) (S : List Nat) (L dl : Nat) :
    List Nat :=
  (((List.range (ceilDiv L dl)).map
      (fun i => H ((i + 1) :: (uint2BS (L * 8) ++ S)))).flatten).take L

/-- Hashgen exactly as the spec words it: the first `n` bytes of
`HASH(data_1) || HASH(data_2) || …` where `data_1 = V` and
`data_{i+1} = (data_i + 1) mod 2^(8·seedlen)` (one-octet tail-aligned
addend). -/
def hashgen_spec (H : List Nat → List Nat) (V : List Nat) (n dl : Nat) :
    List Nat :=
  (((List.range (ceilDiv n dl)).map
      (fun i => H ((fun d => Add d [0x01])^[i] V))).flatten).take n

/-! ## Arithmetic helper lemmas -/

lemma ceilDiv_zero (dl : Nat) : ceilDiv 0 dl = 0 := by
  rcases Nat.eq_zero_or_pos dl with h | h
  · subst h; rfl
  · unfold ceilDiv
    exact Nat.div_eq_of_lt (by omega)

lemma ceilDiv_eq_one {outl dl : Nat} (h1 : 1 ≤ outl) (h2 : outl ≤ dl) :
    ceilDiv outl dl = 1 := by
  have hdl : 0 < dl := le_trans h1 h2
  unfold ceilDiv
  have hd := Nat.div_add_mod (outl + dl - 1) dl
  have hm : (outl + dl - 1) % dl < dl := Nat.mod_lt _ hdl
  rcases Nat.lt_or_ge ((outl + dl - 1) / dl) 1 with hq | hq
  · exfalso
    have hq0 : (outl + dl - 1) / dl = 0 := Nat.lt_one_iff.mp hq
    rw [hq0] at hd
    omega
  rcases Nat.lt_or_ge ((outl + dl - 1) / dl) 2 with hq2 | hq2
  · omega
  · exfalso
    have h2dl : dl * 2 ≤ dl * ((outl + dl - 1) / dl) :=
      Nat.mul_le_mul_left dl hq2
    have hA : dl * 2 ≤ outl + dl - 1 :=
      le_trans h2dl (le_trans (Nat.le_add_right _ _) (le_of_eq hd))
    omega

lemma ceilDiv_step {outl dl : Nat} (hdl : 0 < dl) (h : dl < outl) :
    ceilDiv outl dl = ceilDiv (outl - dl) dl + 1 := by
  unfold ceilDiv
  have h1 : outl + dl - 1 = (outl - dl + dl - 1) + dl := by omega
  rw [h1, Nat.add_div_right _ hdl]

lemma le_ceilDiv_mul {outl dl : Nat} (hdl : 0 < dl) :
    outl ≤ ceilDiv outl dl * dl := by
  have hd := Nat.div_add_mod (outl + dl - 1) dl
  have hm : (outl + dl - 1) % dl < dl := Nat.mod_lt _ hdl
  unfold ceilDiv
  rw [Nat.mul_comm]
  omega

lemma ceilDiv_le {outl dl m : Nat} (hdl : 0 < dl) (h : outl ≤ m * dl) :
    ceilDiv outl dl ≤ m := by
  by_contra h'
  have hq : m + 1 ≤ ceilDiv outl dl := by omega
  have h1 : (m + 1) * dl ≤ ceilDiv outl dl * dl := Nat.mul_le_mul_right dl hq
  have h2 : ceilDiv outl dl * dl ≤ outl + dl - 1 := by
    unfold ceilDiv
    exact Nat.div_mul_le_self _ _
  have h3 : (m + 1) * dl = m * dl + dl := by ring
  omega

/-! ## Big-endian arithmetic lemmas -/

lemma BEbytes_length (l n : Nat) : (BEbytes l n).length = l := by
  induction l generalizing n with
  | zero => rfl
  | succ l ih => simp [BEbytes, ih]

lemma BEval_append_singleton (xs : List Nat) (b : Nat) :
    BEval (xs ++ [b]) = BEval xs * 256 + b % 256 := by
  simp [BEval, List.foldl_append]

lemma BEval_BEbytes (l n : Nat) : BEval (BEbytes l n) = n % 2 ^ (8 * l) := by
  induction l generalizing n with
  | zero => simp [BEbytes, BEval, Nat.mod_one]
  | succ l ih =>
    rw [BEbytes, BEval_append_singleton, ih]
    have hpow : 2 ^ (8 * (l + 1)) = 256 * 2 ^ (8 * l) := by ring
    rw [hpow, Nat.mod_mul]
    generalize n / 256 % 2 ^ (8 * l) = q
    omega

lemma Add_length (a b : List Nat) : (Add a b).length = a.length :=
  BEbytes_length _ _

lemma BEval_Add (a b : List Nat) :
    BEval (Add a b) = (BEval a + BEval b) % 2 ^ (8 * a.length) :=
  BEval_BEbytes _ _

/-! ## The block-emission loop pattern

Both the `Hash_df` loop and the Hashgen loop of `SHA_Generate` have the same
shape: hash a state, copy out `min remaining digestL` bytes, step the state.
`emitLoop` abstracts that shape; `emitLoop_eq` identifies it with the
"concatenate and truncate" formulation the spec uses. -/

lemma emitLoop_of_zero {σ : Type} (f : σ → List Nat) (g : σ → σ)
    (fuel : Nat) (st : σ) : emitLoop f g fuel st 0 = [] := by
  cases fuel <;> simp [emitLoop]

lemma emitLoop_eq {σ : Type} (f : σ → List Nat) (g : σ → σ) (dl : Nat)
    (hf : ∀ s, (f s).length = dl) (hdl : 0 < dl) :
    ∀ fuel outl st, outl ≤ fuel →
      emitLoop f g fuel st outl =
        (((List.range (ceilDiv outl dl)).map
            (fun i => f (g^[i] st))).flatten).take outl := by
  intro fuel
  induction fuel with
  | zero =>
    intro outl st h
    have h0 : outl = 0 := Nat.le_zero.mp h
    subst h0
    simp [emitLoop, ceilDiv_zero]
  | succ n ih =>
    intro outl st h
    by_cases h0 : outl = 0
    · subst h0; simp [emitLoop, ceilDiv_zero]
    · have h1 : 1 ≤ outl := Nat.one_le_iff_ne_zero.mpr h0
      rcases le_or_lt outl dl with hle | hlt
      · -- a single digest block suffices
        have hj : min outl (f st).length = outl := by
          rw [hf]; exact Nat.min_eq_left hle
        simp only [emitLoop, if_neg h0, hj, Nat.sub_self, emitLoop_of_zero,
          List.append_nil, ceilDiv_eq_one h1 hle]
        have hr1 : List.range 1 = [0] := rfl
        simp [hr1]
      · -- a full block is emitted and the loop recurses
        have hj : min outl (f st).length = dl := by
          rw [hf]; exact Nat.min_eq_right (le_of_lt hlt)
        have htake : (f st).take dl = f st := by
          rw [← hf st]; exact List.take_length _
        have hrec : outl - dl ≤ n := by omega
        simp only [emitLoop, if_neg h0, hj, htake]
        rw [ih (outl - dl) (g st) hrec]
        rw [ceilDiv_step hdl hlt, List.range_succ_eq_map]
        simp only [List.map_cons, List.map_map, List.flatten_cons,
          Function.iterate_zero_apply]
        rw [List.take_append_eq_append_take]
        have hA : (f st).take outl = f st :=
          List.take_of_length_le (by rw [hf]; omega)
        rw [hA, hf]
        have hmap2 : List.map ((fun i => f (g^[i] st)) ∘ Nat.succ)
            (List.range (ceilDiv (outl - dl) dl)) =
            List.map (fun i => f (g^[i] (g st)))
              (List.range (ceilDiv (outl - dl) dl)) := by
          apply List.map_congr_left
          intro i _
          simp [Function.comp, Function.iterate_succ_apply]
        rw [hmap2]

/-- Length of the emitted output: exactly `outl` bytes. -/
lemma emitLoop_length {σ : Type} (f : σ → List Nat) (g : σ → σ) (dl : Nat)
    (hf : ∀ s, (f s).length = dl) (hdl : 0 < dl)
    (fuel outl : Nat) (st : σ) (h : outl ≤ fuel) :
    (emitLoop f g fuel st outl).length = outl := by
  rw [emitLoop_eq f g dl hf hdl fuel outl st h, List.length_take]
  have hlen : (((List.range (ceilDiv outl dl)).map
      (fun i => f (g^[i] st))).flatten).length = ceilDiv outl dl * dl := by
    rw [List.length_flatten, List.map_map]
    have hfun : (List.length ∘ fun i => f (g^[i] st)) = fun _ : Nat => dl := by
      funext i
      simp [Function.comp, hf]
    rw [hfun, List.map_const', List.length_range]
    simp [List.sum_replicate, smul_eq_mul, Nat.mul_comm]
  rw [hlen]
  exact Nat.min_eq_left (le_ceilDiv_mul hdl)

/-- The `Hash_df` loop is an instance of `emitLoop`. -/
lemma hashDfLoop_emit (H : List Nat → List Nat) (pfx S : List Nat) :
    ∀ fuel outl c,
      hashDfLoop H pfx S fuel outl c =
        emitLoop (fun c => H ((c % 256) :: (pfx ++ S))) (fun c => c + 1)
          fuel c outl := by
  intro fuel
  induction fuel with
  | zero => intro outl c; rfl
  | succ n ih =>
    intro outl c
    by_cases h0 : outl = 0
    · subst h0; simp [hashDfLoop, emitLoop]
    · simp only [hashDfLoop, emitLoop, if_neg h0, ih]

/-- The Hashgen loop is an instance of `emitLoop`. -/
lemma hashgenLoop_emit (H : List Nat → List Nat) :
    ∀ fuel data blen,
      hashgenLoop H fuel data blen =
        emitLoop H (fun d => Add d [0x01]) fuel data blen := by
  intro fuel
  induction fuel with
  | zero => intro data blen; rfl
  | succ n ih =>
    intro data blen
    by_cases h0 : blen = 0
    · subst h0; simp [hashgenLoop, emitLoop]
    · simp only [hashgenLoop, emitLoop, if_neg h0, ih]

/-! ## Derived facts about the pure embedding -/

/-- `Hash_df` produces exactly the requested number of bytes whenever the
digest length is positive. -/
lemma Hash_df_length (H : List Nat → List Nat) (dl : Nat) (ds : DS)
    (outl : Nat) (hH : ∀ x, (H x).length = dl) (hdl : 0 < dl) :
    (Hash_df H ds outl).length = outl := by
  rw [Hash_df, hashDfLoop_emit]
  exact emitLoop_length _ _ dl (fun c => hH _) hdl outl outl 1 (le_refl _)

/-- `Hash_df` only sees the concatenated bytes of the stack. -/
lemma Hash_df_data_congr (H : List Nat → List Nat) (ds1 ds2 : DS)
    (outl : Nat) (h : DS_data ds1 = DS_data ds2) :
    Hash_df H ds1 outl = Hash_df H ds2 outl := by
  rw [Hash_df, Hash_df, h]

lemma iterate_add_one (c : Nat) : ∀ i, (fun c => c + 1)^[i] c = c + i := by
  intro i
  induction i with
  | zero => rfl
  | succ i ih => rw [Function.iterate_succ_apply', ih]; omega

lemma iterate_Add_length (b V : List Nat) :
    ∀ i, ((fun d => Add d b)^[i] V).length = V.length := by
  intro i
  induction i with
  | zero => rfl
  | succ i ih => rw [Function.iterate_succ_apply', Add_length, ih]

lemma BEval_uint2BS (n : Nat) : BEval (uint2BS n) = n % 2 ^ 32 := by
  simp only [BEval, uint2BS, List.foldl_cons, List.foldl_nil]
  omega

lemma BEval_one : BEval [0x01] = 1 := rfl

lemma genMix_fst_length (H : List Nat → List Nat) (OBL : Nat) (V T : List Nat)
    (adata : Option (List Nat)) (adatal : Nat) :
    (genMix H OBL V T adata adatal).1.length = V.length := by
  rcases adata with _ | ad
  · rfl
  · by_cases h : adatal ≠ 0
    · simp [genMix, h, Add_length]
    · simp [genMix, h]

lemma genMix_snd_length (H : List Nat → List Nat) (dl OBL : Nat)
    (V T : List Nat) (adata : Option (List Nat)) (adatal : Nat)
    (hH : ∀ x, (H x).length = dl) (hdT : dl ≤ T.length) :
    (genMix H OBL V T adata adatal).2.length = T.length := by
  rcases adata with _ | ad
  · rfl
  · by_cases h : adatal ≠ 0
    · simp [genMix, h, hH]
      omega
    · simp [genMix, h]

/-- Under the standing length hypotheses the Hashgen phase of
`SHA_Generate` runs on exactly the mixed working value `V1`. -/
lemma SHA_Generate_fst (H : List Nat → List Nat) (dl seedlen OBL : Nat)
    (V C T : List Nat) (rc : Nat) (adata : Option (List Nat))
    (adatal blen : Nat)
    (hH : ∀ x, (H x).length = dl) (hdsl : dl ≤ seedlen)
    (hV : V.length = seedlen) (hT : T.length = seedlen) :
    (SHA_Generate H seedlen OBL V C T rc adata adatal blen).1 =
      hashgenLoop H blen (genMix H OBL V T adata adatal).1 blen := by
  have h1 : (genMix H OBL V T adata adatal).1.length = seedlen := by
    rw [genMix_fst_length, hV]
  have h2 : (genMix H OBL V T adata adatal).2.length = seedlen := by
    rw [genMix_snd_length H dl OBL V T adata adatal hH (by omega), hT]
  have h3 : (genMix H OBL V T adata adatal).2.drop
      ((genMix H OBL V T adata adatal).1.length) = [] :=
    List.drop_eq_nil_of_le (by omega)
  simp only [SHA_Generate, h3, List.append_nil]

/-- The final working value of `SHA_Generate`, read off the definition. -/
lemma SHA_Generate_snd (H : List Nat → List Nat) (seedlen OBL : Nat)
    (V C T : List Nat) (rc : Nat) (adata : Option (List Nat))
    (adatal blen : Nat) :
    (SHA_Generate H seedlen OBL V C T rc adata adatal blen).2 =
      Add (Add (Add (genMix H OBL V T adata adatal).1
        ((H ([0x03] ++ (genMix H OBL V T adata adatal).1) ++
          (List.replicate seedlen 0).drop
            (H ([0x03] ++ (genMix H OBL V T adata adatal).1)).length).take
          OBL)) C) (reseedCtrBytes rc) := rfl

/-! ## Claim theorems -/

/-- C1: For every input byte-stack `S` and every requested output length `L`
with `1 ≤ L ≤ 255 · digest_len`, assuming every digest call succeeds,
`Hash_df(S, L)` writes exactly `L` bytes equal to the concatenation of
`HASH(i || no_of_bits || S)` for `i = 1 .. ⌈L/digest_len⌉` truncated to `L`
bytes, with `i` a single octet starting at 1 and `no_of_bits = L·8` as
32-bit big-endian. -/
theorem C1_hash_df (H : List Nat → List Nat) (dl : Nat) (ds : DS) (L : Nat)
    (hH : ∀ x, (H x).length = dl) (h1 : 1 ≤ L) (h2 : L ≤ 255 * dl) :
    (Hash_df H ds L).length = L ∧
    Hash_df H ds L = hashDf_spec H (DS_data ds) L dl := by
  have hdl : 0 < dl := by
    rcases Nat.eq_zero_or_pos dl with h | h
    · subst h; omega
    · exact h
  refine ⟨Hash_df_length H dl ds L hH hdl, ?_⟩
  rw [Hash_df, hashDfLoop_emit,
    emitLoop_eq _ _ dl (fun c => hH _) hdl L L 1 (le_refl _), hashDf_spec]
  have hnb : ceilDiv L dl ≤ 255 := ceilDiv_le hdl h2
  congr 1
  congr 1
  apply List.map_congr_left
  intro i hi
  have hi' : i < ceilDiv L dl := List.mem_range.mp hi
  show H (((fun c => c + 1)^[i] 1 % 256) :: (uint2BS (L * 8) ++ DS_data ds)) = _
  rw [iterate_add_one]
  have hmod : (1 + i) % 256 = i + 1 := by omega
  rw [hmod]

/-- C1 witness: a concrete two-block run with a one-byte digest. -/
theorem C1_hash_df_witness :
    (Hash_df (fun _ => [7]) [[5]] 2).length = 2 ∧
    Hash_df (fun _ => [7]) [[5]] 2 = hashDf_spec (fun _ => [7]) (DS_data [[5]]) 2 1 :=
  C1_hash_df (fun _ => [7]) 1 [[5]] 2 (fun _ => rfl) (by decide) (by decide)

/-- C2: For every entropy input, nonce and personalization string within the
profile maxima, assuming every digest call succeeds, after Instantiate the
working state satisfies `V = Hash_df(ein || nonce || personalization,
seedlen)` and `C = Hash_df(0x00 || V, seedlen)`, both exactly `seedlen`
bytes wide. -/
theorem C2_instantiate (H : List Nat → List Nat) (dl seedlen : Nat)
    (ein nonce person : List Nat)
    (hH : ∀ x, (H x).length = dl)
    (hsl : 1 ≤ seedlen) (hub : seedlen ≤ 255 * dl)
    (he : ein.length ≤ 2 ^ 27) (hn : nonce.length ≤ 2 ^ 27)
    (hp : person.length ≤ 2 ^ 27) :
    (SHA_Instantiate H seedlen ein nonce person).1 =
      Hash_df H [ein ++ nonce ++ person] seedlen ∧
    (SHA_Instantiate H seedlen ein nonce person).2 =
      Hash_df H [[0x00] ++ (SHA_Instantiate H seedlen ein nonce person).1]
        seedlen ∧
    (SHA_Instantiate H seedlen ein nonce person).1.length = seedlen ∧
    (SHA_Instantiate H seedlen ein nonce person).2.length = seedlen := by
  have hdl : 0 < dl := by
    rcases Nat.eq_zero_or_pos dl with h | h
    · subst h; omega
    · exact h
  have hfst : (SHA_Instantiate H seedlen ein nonce person).1 =
      Hash_df H [ein ++ nonce ++ person] seedlen := by
    show Hash_df H (DS_Append (DS_Append (DS_Append DS_empty ein) nonce)
      person) seedlen = _
    apply Hash_df_data_congr
    simp [DS_data, DS_Append, DS_empty]
  have hsnd : (SHA_Instantiate H seedlen ein nonce person).2 =
      Hash_df H [[0x00] ++ (SHA_Instantiate H seedlen ein nonce person).1]
        seedlen := by
    show Hash_df H (DS_Append (DS_Append DS_empty [0x00])
      (Hash_df H (DS_Append (DS_Append (DS_Append DS_empty ein) nonce)
        person) seedlen)) seedlen = _
    apply Hash_df_data_congr
    simp [DS_data, DS_Append, DS_empty]
    rfl
  refine ⟨hfst, hsnd, ?_, ?_⟩
  · rw [hfst]
    exact Hash_df_length H dl _ seedlen hH hdl
  · rw [hsnd]
    exact Hash_df_length H dl _ seedlen hH hdl

/-- C2 witness: concrete inputs with a one-byte digest and `seedlen = 2`. -/
theorem C2_instantiate_witness :
    (SHA_Instantiate (fun x => [x.length % 256]) 2 [1] [2, 3] [4]).1 =
      Hash_df (fun x => [x.length % 256]) [[1] ++ [2, 3] ++ [4]] 2 ∧
    (SHA_Instantiate (fun x => [x.length % 256]) 2 [1] [2, 3] [4]).2 =
      Hash_df (fun x => [x.length % 256])
        [[0x00] ++ (SHA_Instantiate (fun x => [x.length % 256]) 2 [1] [2, 3]
          [4]).1] 2 ∧
    (SHA_Instantiate (fun x => [x.length % 256]) 2 [1] [2, 3] [4]).1.length
      = 2 ∧
    (SHA_Instantiate (fun x => [x.length % 256]) 2 [1] [2, 3] [4]).2.length
      = 2 :=
  C2_instantiate (fun x => [x.length % 256]) 1 2 [1] [2, 3] [4]
    (fun _ => rfl) (by decide) (by decide) (by decide) (by decide) (by decide)

/-- C3: For every instantiated state with working value `V_old`, entropy
input and additional input within the profile maxima, assuming every digest
call succeeds, after Reseed the state satisfies
`V = Hash_df(0x01 || V_old || ein || additional_input, seedlen)` and
`C = Hash_df(0x00 || V, seedlen)`, even though the implementation uses `C`
as the scratch destination of the first `Hash_df` before copying into
`V`. -/
theorem C3_reseed (H : List Nat → List Nat) (dl seedlen : Nat)
    (V ein adata : List Nat)
    (hH : ∀ x, (H x).length = dl)
    (hsl : 1 ≤ seedlen) (hub : seedlen ≤ 255 * dl)
    (he : ein.length ≤ 2 ^ 27) (ha : adata.length ≤ 2 ^ 27) :
    (SHA_ReSeed H seedlen V ein adata).1 =
      Hash_df H [[0x01] ++ V ++ ein ++ adata] seedlen ∧
    (SHA_ReSeed H seedlen V ein adata).2 =
      Hash_df H [[0x00] ++ (SHA_ReSeed H seedlen V ein adata).1] seedlen ∧
    (SHA_ReSeed H seedlen V ein adata).1.length = seedlen ∧
    (SHA_ReSeed H seedlen V ein adata).2.length = seedlen := by
  have hdl : 0 < dl := by
    rcases Nat.eq_zero_or_pos dl with h | h
    · subst h; omega
    · exact h
  have hfst : (SHA_ReSeed H seedlen V ein adata).1 =
      Hash_df H [[0x01] ++ V ++ ein ++ adata] seedlen := by
    show Hash_df H (DS_Append (DS_Append (DS_Append (DS_Append DS_empty
      [0x01]) V) ein) adata) seedlen = _
    apply Hash_df_data_congr
    simp [DS_data, DS_Append, DS_empty]
  have hsnd : (SHA_ReSeed H seedlen V ein adata).2 =
      Hash_df H [[0x00] ++ (SHA_ReSeed H seedlen V ein adata).1] seedlen := by
    show Hash_df H (DS_Append (DS_Append DS_empty [0x00])
      (Hash_df H (DS_Append (DS_Append (DS_Append (DS_Append DS_empty
        [0x01]) V) ein) adata) seedlen)) seedlen = _
    apply Hash_df_data_congr
    simp [DS_data, DS_Append, DS_empty]
    rfl
  refine ⟨hfst, hsnd, ?_, ?_⟩
  · rw [hfst]
    exact Hash_df_length H dl _ seedlen hH hdl
  · rw [hsnd]
    exact Hash_df_length H dl _ seedlen hH hdl

/-- C3 witness: concrete inputs with a one-byte digest and `seedlen = 2`. -/
theorem C3_reseed_witness :
    (SHA_ReSeed (fun x => [x.length % 256]) 2 [9, 9] [1] [2]).1 =
      Hash_df (fun x => [x.length % 256]) [[0x01] ++ [9, 9] ++ [1] ++ [2]] 2 ∧
    (SHA_ReSeed (fun x => [x.length % 256]) 2 [9, 9] [1] [2]).2 =
      Hash_df (fun x => [x.length % 256])
        [[0x00] ++ (SHA_ReSeed (fun x => [x.length % 256]) 2 [9, 9] [1]
          [2]).1] 2 ∧
    (SHA_ReSeed (fun x => [x.length % 256]) 2 [9, 9] [1] [2]).1.length = 2 ∧
    (SHA_ReSeed (fun x => [x.length % 256]) 2 [9, 9] [1] [2]).2.length = 2 :=
  C3_reseed (fun x => [x.length % 256]) 1 2 [9, 9] [1] [2]
    (fun _ => rfl) (by decide) (by decide) (by decide) (by decide)

/-- C4: For every requested byte count `n ≤ max_bytes_per_request` and every
READY instance whose digest calls all succeed, Generate emits exactly `n`
bytes (never writing past offset `n` of the caller's buffer: the output is
the `n`-byte list), equal to the first `n` bytes of
`HASH(data_1) || HASH(data_2) || …` with `data_1 = V` after any
additional-input mixing and `data_{i+1} = (data_i + 1) mod 2^(8·seedlen)`
(one-octet tail-aligned addend); each digest lands in a scratch buffer and
only `min remaining block_len` bytes are copied out (the very shape of
`hashgenLoop`). -/
theorem C4_generate_output (H : List Nat → List Nat) (dl seedlen OBL : Nat)
    (V C T : List Nat) (rc : Nat) (adata : Option (List Nat))
    (adatal blen : Nat)
    (hH : ∀ x, (H x).length = dl) (hdl : 0 < dl) (hdsl : dl ≤ seedlen)
    (hV : V.length = seedlen) (hT : T.length = seedlen)
    (hmax : blen ≤ 2 ^ 11) :
    (SHA_Generate H seedlen OBL V C T rc adata adatal blen).1.length = blen ∧
    (SHA_Generate H seedlen OBL V C T rc adata adatal blen).1 =
      hashgen_spec H (genMix H OBL V T adata adatal).1 blen dl ∧
    (∀ i, BEval ((fun d => Add d [0x01])^[i + 1]
        (genMix H OBL V T adata adatal).1) =
      (BEval ((fun d => Add d [0x01])^[i]
        (genMix H OBL V T adata adatal).1) + 1) % 2 ^ (8 * seedlen)) := by
  have heq := SHA_Generate_fst H dl seedlen OBL V C T rc adata adatal blen
    hH hdsl hV hT
  refine ⟨?_, ?_, ?_⟩
  · rw [heq, hashgenLoop_emit]
    exact emitLoop_length H _ dl hH hdl blen blen _ (le_refl _)
  · rw [heq, hashgenLoop_emit,
      emitLoop_eq H _ dl hH hdl blen blen _ (le_refl _), hashgen_spec]
  · intro i
    rw [Function.iterate_succ_apply', BEval_Add, BEval_one,
      iterate_Add_length, genMix_fst_length, hV]

/-- C4 witness: a concrete two-block Generate with a one-byte digest. -/
theorem C4_generate_output_witness :
    (SHA_Generate (fun _ => [7]) 1 1 [1] [5] [0] 1 none 0 2).1.length = 2 ∧
    (SHA_Generate (fun _ => [7]) 1 1 [1] [5] [0] 1 none 0 2).1 =
      hashgen_spec (fun _ => [7]) (genMix (fun _ => [7]) 1 [1] [0] none 0).1
        2 1 ∧
    BEval ((fun d => Add d [0x01])^[0 + 1]
        (genMix (fun _ => [7]) 1 [1] [0] none 0).1) =
      (BEval ((fun d => Add d [0x01])^[0]
        (genMix (fun _ => [7]) 1 [1] [0] none 0).1) + 1) % 2 ^ (8 * 1) :=
  ⟨(C4_generate_output (fun _ => [7]) 1 1 1 [1] [5] [0] 1 none 0 2
      (fun _ => rfl) (by decide) (by decide) (by decide) (by decide)
      (by decide)).1,
   (C4_generate_output (fun _ => [7]) 1 1 1 [1] [5] [0] 1 none 0 2
      (fun _ => rfl) (by decide) (by decide) (by decide) (by decide)
      (by decide)).2.1,
   (C4_generate_output (fun _ => [7]) 1 1 1 [1] [5] [0] 1 none 0 2
      (fun _ => rfl) (by decide) (by decide) (by decide) (by decide)
      (by decide)).2.2 0⟩

/-- C5: For every successful Generate call the final working value is
`V' = (((V + H) mod 2^(8·seedlen) + C) mod 2^(8·seedlen)
       + reseed_counter_bytes) mod 2^(8·seedlen)`, where `V` is the value
entering the Hashgen phase, `H = HASH(0x03 || V)` is added as a tail-aligned
addend of `OBL` bytes, `C` at full seedlen width, and the reseed counter as
a 4-byte big-endian tail-aligned addend. -/
theorem C5_generate_update (H : List Nat → List Nat) (dl seedlen OBL : Nat)
    (V C T : List Nat) (rc : Nat) (adata : Option (List Nat))
    (adatal blen : Nat)
    (hH : ∀ x, (H x).length = dl) (hdl : 0 < dl) (hOBL : OBL = dl)
    (hdsl : dl ≤ seedlen) (hV : V.length = seedlen)
    (hC : C.length = seedlen) (hT : T.length = seedlen) :
    (SHA_Generate H seedlen OBL V C T rc adata adatal blen).2.length
      = seedlen ∧
    BEval (SHA_Generate H seedlen OBL V C T rc adata adatal blen).2 =
      (((BEval (genMix H OBL V T adata adatal).1
          + BEval (H ([0x03] ++ (genMix H OBL V T adata adatal).1)))
            % 2 ^ (8 * seedlen)
        + BEval C) % 2 ^ (8 * seedlen)
        + BEval (reseedCtrBytes rc)) % 2 ^ (8 * seedlen) ∧
    BEval (reseedCtrBytes rc) = rc % 2 ^ 32 := by
  subst hOBL
  have hV1 : (genMix H OBL V T adata adatal).1.length = seedlen := by
    rw [genMix_fst_length, hV]
  have hHb : (H ([0x03] ++ (genMix H OBL V T adata adatal).1)).length = OBL :=
    hH _
  have htake : ((H ([0x03] ++ (genMix H OBL V T adata adatal).1)) ++
      (List.replicate seedlen (0 : Nat)).drop
        (H ([0x03] ++ (genMix H OBL V T adata adatal).1)).length).take OBL
      = H ([0x03] ++ (genMix H OBL V T adata adatal).1) := by
    rw [List.take_append_eq_append_take,
      List.take_of_length_le (le_of_eq hHb), hHb, Nat.sub_self,
      List.take_zero, List.append_nil]
  rw [SHA_Generate_snd, htake]
  refine ⟨?_, ?_, BEval_uint2BS rc⟩
  · simp only [Add_length, hV1]
  · rw [BEval_Add, BEval_Add, BEval_Add]
    simp only [Add_length, hV1]

/-- C5 witness: a concrete Generate with a one-byte digest and
`seedlen = OBL = 1`. -/
theorem C5_generate_update_witness :
    (SHA_Generate (fun _ => [7]) 1 1 [1] [5] [0] 3 none 0 0).2.length = 1 ∧
    BEval (SHA_Generate (fun _ => [7]) 1 1 [1] [5] [0] 3 none 0 0).2 =
      (((BEval (genMix (fun _ => [7]) 1 [1] [0] none 0).1
          + BEval ((fun _ : List Nat => [7])
              ([0x03] ++ (genMix (fun _ => [7]) 1 [1] [0] none 0).1)))
            % 2 ^ (8 * 1)
        + BEval [5]) % 2 ^ (8 * 1)
        + BEval (reseedCtrBytes 3)) % 2 ^ (8 * 1) ∧
    BEval (reseedCtrBytes 3) = 3 % 2 ^ 32 :=
  C5_generate_update (fun _ => [7]) 1 1 1 [1] [5] [0] 3 none 0 0
    (fun _ => rfl) (by decide) (by decide) (by decide) (by decide)
    (by decide) (by decide)

/-- C10: In Generate, the additional-input mixing step
(`w = HASH(0x02 || V || additional_input)`; `V = (V + w) mod 2^(8·seedlen)`)
is performed exactly when the additional-input pointer is non-NULL and its
declared length is non-zero; a NULL pointer with positive declared length,
or a non-NULL pointer with zero length, skips the step and leaves `V`
unchanged, and the whole Generate call then behaves as with no additional
input at all. -/
theorem C10_adata_condition (H : List Nat → List Nat) (seedlen OBL : Nat)
    (V C T ad : List Nat) (rc adatal blen : Nat) :
    genMix H OBL V T none adatal = (V, T) ∧
    genMix H OBL V T (some ad) 0 = (V, T) ∧
    (adatal ≠ 0 → genMix H OBL V T (some ad) adatal =
      (Add V ((H ([0x02] ++ V ++ ad.take adatal) ++
          T.drop (H ([0x02] ++ V ++ ad.take adatal)).length).take OBL),
       H ([0x02] ++ V ++ ad.take adatal) ++
          T.drop (H ([0x02] ++ V ++ ad.take adatal)).length)) ∧
    SHA_Generate H seedlen OBL V C T rc none adatal blen =
      SHA_Generate H seedlen OBL V C T rc (some ad) 0 blen := by
  refine ⟨rfl, by simp [genMix], ?_, ?_⟩
  · intro h
    simp [genMix, h]
  · unfold SHA_Generate
    simp [genMix]

/-- C10 witness: the mixing branch at a concrete non-empty additional
input. -/
theorem C10_adata_condition_witness :
    genMix (fun _ => [7]) 1 [1] [0] (some [9]) 2 =
      (Add [1] (((fun _ : List Nat => [7]) ([0x02] ++ [1] ++ [9].take 2) ++
          [0].drop ((fun _ : List Nat => [7])
            ([0x02] ++ [1] ++ [9].take 2)).length).take 1),
       (fun _ : List Nat => [7]) ([0x02] ++ [1] ++ [9].take 2) ++
          [0].drop ((fun _ : List Nat => [7])
            ([0x02] ++ [1] ++ [9].take 2)).length) :=
  (C10_adata_condition (fun _ => [7]) 1 1 [1] [2] [0] [9] 0 2 0).2.2.1
    (by decide)

/-- C9 counterexample: in the source, the reseed-entropy position (slot 3)
of the SHA-1 strength-112 KAT 6-tuple is the shared `NONE` buffer, not the
16-byte value `6bd1589156952524ba1f9b140659baf2`; that value sits at slot 2,
the personalization position (`SHA1_112IntPer`).  So the claim's reading —
reseed entropy supplied, hence a reseed performed — is false of the data. -/
theorem C9_kat_cex :
    sha1PRNG.kat.head? = some sha1Kat0 ∧
    sha1Kat0.reseedEin = [] ∧
    sha1Kat0.reseedEin ≠
      [0x6b, 0xd1, 0x58, 0x91, 0x56, 0x95, 0x25, 0x24,
       0xba, 0x1f, 0x9b, 0x14, 0x06, 0x59, 0xba, 0xf2] ∧
    sha1Kat0.person =
      [0x6b, 0xd1, 0x58, 0x91, 0x56, 0x95, 0x25, 0x24,
       0xba, 0x1f, 0x9b, 0x14, 0x06, 0x59, 0xba, 0xf2] := by
  refine ⟨rfl, rfl, ?_, rfl⟩
  decide

/-- C9 (amended): the SHA-1 strength-112 KAT uses entropy input
`dc106ace9ff57c68131ea2ee75c6585a` and nonce `6a360c6f7bd4601e`, supplies
the 16-byte value `6bd1589156952524ba1f9b140659baf2` as the personalization
(slot 2) of the KAT 6-tuple while the reseed-entropy slot (3) and the
generate-additional-input slot (4) are the empty `NONE` buffer — so no
reseed is performed between instantiate and generate — and its 64-byte
expected output begins
`3654d194a757d6293ccd301439a2f63e81cbbb031f6b47870ff0c41cf12af63f`. -/
theorem C9_kat_amended :
    sha1PRNG.kat.head? = some sha1Kat0 ∧
    sha1Kat0.ein =
      [0xdc, 0x10, 0x6a, 0xce, 0x9f, 0xf5, 0x7c, 0x68,
       0x13, 0x1e, 0xa2, 0xee, 0x75, 0xc6, 0x58, 0x5a] ∧
    sha1Kat0.nonce = [0x6a, 0x36, 0x0c, 0x6f, 0x7b, 0xd4, 0x60, 0x1e] ∧
    sha1Kat0.person =
      [0x6b, 0xd1, 0x58, 0x91, 0x56, 0x95, 0x25, 0x24,
       0xba, 0x1f, 0x9b, 0x14, 0x06, 0x59, 0xba, 0xf2] ∧
    sha1Kat0.reseedEin = [] ∧
    sha1Kat0.genEin = [] ∧
    sha1Kat0.expected.length = 64 ∧
    sha1Kat0.expected.take 32 =
      [0x36, 0x54, 0xd1, 0x94, 0xa7, 0x57, 0xd6, 0x29,
       0x3c, 0xcd, 0x30, 0x14, 0x39, 0xa2, 0xf6, 0x3e,
       0x81, 0xcb, 0xbb, 0x03, 0x1f, 0x6b, 0x47, 0x87,
       0x0f, 0xf0, 0xc4, 0x1c, 0xf1, 0x2a, 0xf6, 0x3f] := by
  refine ⟨rfl, rfl, rfl, rfl, rfl, rfl, ?_, ?_⟩ <;> decide

/-! ## Facts about the fallible embedding -/

lemma updatesF_mono (O : Nat → Bool) (msg : String) :
    ∀ (fs : List (List Nat)) (k : Nat), k ≤ (updatesF O msg fs k).1 := by
  intro fs
  induction fs with
  | nil => intro k; exact le_refl k
  | cons f rest ih =>
    intro k
    by_cases h : O k
    · simp only [updatesF, h, if_true]
      exact le_trans (Nat.le_succ k) (ih (k + 1))
    · simp only [updatesF, h, if_false]
      exact Nat.le_succ k

lemma updatesF_ok (O : Nat → Bool) (msg : String) :
    ∀ (fs : List (List Nat)) (k : Nat), (updatesF O msg fs k).2 = none →
      ∀ i, k ≤ i → i < (updatesF O msg fs k).1 → O i = true := by
  intro fs
  induction fs with
  | nil =>
    intro k _ i h1 h2
    exact absurd (lt_of_le_of_lt h1 h2) (lt_irrefl k)
  | cons f rest ih =>
    intro k hnone i h1 h2
    by_cases h : O k
    · simp only [updatesF, h, if_true] at hnone h2
      rcases Nat.eq_or_lt_of_le h1 with he | hl
      · exact he ▸ h
      · exact ih (k + 1) hnone i hl h2
    · simp [updatesF, h] at hnone

lemma updatesF_err (O : Nat → Bool) (msg : String) :
    ∀ (fs : List (List Nat)) (k : Nat) (e : String),
      (updatesF O msg fs k).2 = some e → e = msg := by
  intro fs
  induction fs with
  | nil => intro k e h; simp [updatesF] at h
  | cons f rest ih =>
    intro k e h
    by_cases hO : O k
    · simp only [updatesF, hO, if_true] at h
      exact ih (k + 1) e h
    · simp only [updatesF, hO, if_false] at h
      exact (Option.some.inj h).symm

lemma hashCallF_ok_spec (O : Nat → Bool) (H : List Nat → List Nat)
    (updMsg : String) (frags : List (List Nat)) (k : Nat) (d : List Nat)
    (k1 : Nat) (h : hashCallF O H updMsg frags k = .ok d k1) :
    k ≤ k1 ∧ d = H frags.flatten ∧ ∀ i, k ≤ i → i < k1 → O i = true := by
  unfold hashCallF at h
  by_cases h0 : O k
  · rw [if_pos h0] at h
    split at h
    · exact absurd h (by simp)
    · rename_i ku hu
      have hm : k + 1 ≤ ku := by
        have hmono := updatesF_mono O updMsg frags (k + 1)
        rw [hu] at hmono
        exact hmono
      by_cases h2 : O ku
      · rw [if_pos h2] at h
        cases h
        refine ⟨by omega, rfl, ?_⟩
        intro i hi1 hi2
        rcases Nat.eq_or_lt_of_le hi1 with he | hl
        · exact he ▸ h0
        · rcases lt_or_ge i ku with hx | hx
          · have hok := updatesF_ok O updMsg frags (k + 1)
            rw [hu] at hok
            exact hok rfl i hl hx
          · have hik : i = ku := by omega
            exact hik ▸ h2
      · rw [if_neg h2] at h
        cases h
  · rw [if_neg h0] at h
    cases h

lemma hashCallF_fail_spec (O : Nat → Bool) (H : List Nat → List Nat)
    (updMsg : String) (frags : List (List Nat)) (k : Nat) (m : String)
    (k1 : Nat) (h : hashCallF O H updMsg frags k = .fail m k1) :
    k ≤ k1 ∧ (m = "Digest Init failed" ∨ m = updMsg ∨
      m = "Digest Final failed") := by
  unfold hashCallF at h
  by_cases h0 : O k
  · rw [if_pos h0] at h
    split at h
    · rename_i ku m2 hu
      have hm : k + 1 ≤ ku := by
        have hmono := updatesF_mono O updMsg frags (k + 1)
        rw [hu] at hmono
        exact hmono
      injection h with h3 h4
      subst h3
      subst h4
      refine ⟨by omega, Or.inr (Or.inl ?_)⟩
      exact updatesF_err O updMsg frags (k + 1) m2 (by rw [hu])
    · rename_i ku hu
      have hm : k + 1 ≤ ku := by
        have hmono := updatesF_mono O updMsg frags (k + 1)
        rw [hu] at hmono
        exact hmono
      by_cases h2 : O ku
      · rw [if_pos h2] at h
        cases h
      · rw [if_neg h2] at h
        cases h
        exact ⟨by omega, Or.inr (Or.inr rfl)⟩
  · rw [if_neg h0] at h
    cases h
    exact ⟨Nat.le_succ k, Or.inl rfl⟩

lemma hashgenF_k_mono (O : Nat → Bool) (H : List Nat → List Nat) :
    ∀ fuel T eB blen k, k ≤ (hashgenF O H fuel T eB blen k).k := by
  intro fuel
  induction fuel with
  | zero => intro T eB blen k; exact le_refl k
  | succ n ih =>
    intro T eB blen k
    by_cases h0 : blen = 0
    · simp [hashgenF, h0]
    · rcases hres : doHashF O H [T] k with ⟨d, k1⟩ | ⟨m, k1⟩
      · have hk1 := (hashCallF_ok_spec O H _ [T] k d k1 hres).1
        simp only [hashgenF, if_neg h0, hres]
        exact le_trans hk1 (ih _ _ _ k1)
      · have hk1 := (hashCallF_fail_spec O H _ [T] k m k1 hres).1
        simp only [hashgenF, if_neg h0, hres]
        exact hk1

lemma hashgenF_ok (O : Nat → Bool) (H : List Nat → List Nat) :
    ∀ fuel T eB blen k, (hashgenF O H fuel T eB blen k).err = none →
      ∀ i, k ≤ i → i < (hashgenF O H fuel T eB blen k).k → O i = true := by
  intro fuel
  induction fuel with
  | zero =>
    intro T eB blen k _ i h1 h2
    exact absurd (lt_of_le_of_lt h1 h2) (lt_irrefl k)
  | succ n ih =>
    intro T eB blen k hnone i h1 h2
    by_cases h0 : blen = 0
    · simp [hashgenF, h0] at h2
      omega
    · rcases hres : doHashF O H [T] k with ⟨d, k1⟩ | ⟨m, k1⟩
      · obtain ⟨hk1, _, hall⟩ := hashCallF_ok_spec O H _ [T] k d k1 hres
        simp only [hashgenF, if_neg h0, hres] at hnone h2
        rcases lt_or_ge i k1 with hx | hx
        · exact hall i h1 hx
        · exact ih _ _ _ k1 hnone i hx h2
      · simp only [hashgenF, if_neg h0, hres] at hnone
        exact Option.noConfusion hnone

lemma hashgenF_err (O : Nat → Bool) (H : List Nat → List Nat) :
    ∀ fuel T eB blen k m, (hashgenF O H fuel T eB blen k).err = some m →
      m ≠ "" := by
  intro fuel
  induction fuel with
  | zero => intro T eB blen k m h; simp [hashgenF] at h
  | succ n ih =>
    intro T eB blen k m h
    by_cases h0 : blen = 0
    · simp [hashgenF, h0] at h
    · rcases hres : doHashF O H [T] k with ⟨d, k1⟩ | ⟨m2, k1⟩
      · simp only [hashgenF, if_neg h0, hres] at h
        exact ih _ _ _ k1 m h
      · simp only [hashgenF, if_neg h0, hres] at h
        obtain ⟨_, hmsg⟩ := hashCallF_fail_spec O H _ [T] k m2 k1 hres
        have hm2 : m = m2 := (Option.some.inj h).symm
        subst hm2
        rcases hmsg with h | h | h <;> subst h <;> decide

lemma hashCallF_first_fail (O : Nat → Bool) (H : List Nat → List Nat)
    (updMsg : String) (frags : List (List Nat)) (k : Nat) (h : O k = false) :
    hashCallF O H updMsg frags k = .fail "Digest Init failed" (k + 1) := by
  unfold hashCallF
  rw [if_neg (by simp [h])]

lemma Hash_dfFLoop_of_zero (O : Nat → Bool) (H : List Nat → List Nat)
    (pfx : List Nat) (ds : DS) (fuel c : Nat) (T : List Nat) (k dL : Nat) :
    Hash_dfFLoop O H pfx ds fuel 0 c T k dL = ⟨[], T, k, none, dL⟩ := by
  cases fuel <;> simp [Hash_dfFLoop]

lemma Hash_dfFLoop_k_mono (O : Nat → Bool) (H : List Nat → List Nat)
    (pfx : List Nat) (ds : DS) :
    ∀ fuel outl c T k dL,
      k ≤ (Hash_dfFLoop O H pfx ds fuel outl c T k dL).k := by
  intro fuel
  induction fuel with
  | zero => intro outl c T k dL; exact le_refl k
  | succ n ih =>
    intro outl c T k dL
    by_cases h0 : outl = 0
    · simp [Hash_dfFLoop, h0]
    · rcases hres : dfHashOnce O H (dsExtractList ([c % 256] :: pfx :: ds)) k
        with ⟨d, k1⟩ | ⟨m, k1⟩
      · have hk1 := (hashCallF_ok_spec O H _ _ k d k1 hres).1
        simp only [Hash_dfFLoop, if_neg h0, hres]
        exact le_trans hk1 (ih _ _ _ _ _)
      · have hk1 := (hashCallF_fail_spec O H _ _ k m k1 hres).1
        simp only [Hash_dfFLoop, if_neg h0, hres]
        exact hk1

lemma Hash_dfFLoop_ok (O : Nat → Bool) (H : List Nat → List Nat)
    (pfx : List Nat) (ds : DS) :
    ∀ fuel outl c T k dL,
      (Hash_dfFLoop O H pfx ds fuel outl c T k dL).err = none →
      ∀ i, k ≤ i → i < (Hash_dfFLoop O H pfx ds fuel outl c T k dL).k →
        O i = true := by
  intro fuel
  induction fuel with
  | zero =>
    intro outl c T k dL _ i h1 h2
    exact absurd (lt_of_le_of_lt h1 h2) (lt_irrefl k)
  | succ n ih =>
    intro outl c T k dL hnone i h1 h2
    by_cases h0 : outl = 0
    · simp [Hash_dfFLoop, h0] at h2
      omega
    · rcases hres : dfHashOnce O H (dsExtractList ([c % 256] :: pfx :: ds)) k
        with ⟨d, k1⟩ | ⟨m, k1⟩
      · obtain ⟨hk1, _, hall⟩ := hashCallF_ok_spec O H _ _ k d k1 hres
        simp only [Hash_dfFLoop, if_neg h0, hres] at hnone h2
        rcases lt_or_ge i k1 with hx | hx
        · exact hall i h1 hx
        · exact ih _ _ _ _ _ hnone i hx h2
      · simp only [Hash_dfFLoop, if_neg h0, hres] at hnone
        exact Option.noConfusion hnone

lemma Hash_dfFLoop_err (O : Nat → Bool) (H : List Nat → List Nat)
    (pfx : List Nat) (ds : DS) :
    ∀ fuel outl c T k dL m,
      (Hash_dfFLoop O H pfx ds fuel outl c T k dL).err = some m →
      m ≠ "" := by
  intro fuel
  induction fuel with
  | zero => intro outl c T k dL m h; simp [Hash_dfFLoop] at h
  | succ n ih =>
    intro outl c T k dL m h
    by_cases h0 : outl = 0
    · simp [Hash_dfFLoop, h0] at h
    · rcases hres : dfHashOnce O H (dsExtractList ([c % 256] :: pfx :: ds)) k
        with ⟨d, k1⟩ | ⟨m2, k1⟩
      · simp only [Hash_dfFLoop, if_neg h0, hres] at h
        exact ih _ _ _ _ _ m h
      · simp only [Hash_dfFLoop, if_neg h0, hres] at h
        obtain ⟨_, hmsg⟩ := hashCallF_fail_spec O H _ _ k m2 k1 hres
        have hm2 : m = m2 := (Option.some.inj h).symm
        subst hm2
        rcases hmsg with h | h | h <;> subst h <;> decide

lemma Hash_dfFLoop_T (O : Nat → Bool) (H : List Nat → List Nat)
    (pfx : List Nat) (ds : DS) (dl : Nat)
    (hH : ∀ x, (H x).length = dl) (hdl : 0 < dl) :
    ∀ fuel outl c T k dL,
      (Hash_dfFLoop O H pfx ds fuel outl c T k dL).err = none →
      1 ≤ outl → outl ≤ fuel →
      (Hash_dfFLoop O H pfx ds fuel outl c T k dL).digestL = dl ∧
      ∃ x, (Hash_dfFLoop O H pfx ds fuel outl c T k dL).T =
        H x ++ T.drop dl := by
  intro fuel
  induction fuel with
  | zero => intro outl c T k dL _ h1 h2; omega
  | succ n ih =>
    intro outl c T k dL hnone h1 h2
    have h0 : ¬outl = 0 := by omega
    rcases hres : dfHashOnce O H (dsExtractList ([c % 256] :: pfx :: ds)) k
      with ⟨d, k1⟩ | ⟨m, k1⟩
    · obtain ⟨_, hd, _⟩ := hashCallF_ok_spec O H _ _ k d k1 hres
      have hdlen : d.length = dl := by rw [hd, hH]
      have hT1 : (applyBuf T d).drop dl = T.drop dl := by
        rw [applyBuf, ← hdlen, List.drop_left, hdlen]
      simp only [Hash_dfFLoop, if_neg h0, hres] at hnone ⊢
      by_cases hrem : outl - min outl d.length = 0
      · rw [hrem, Hash_dfFLoop_of_zero]
        refine ⟨hdlen,
          ⟨(dsExtractList ([c % 256] :: pfx :: ds)).flatten, ?_⟩⟩
        rw [applyBuf, ← hd, ← hdlen]
      · obtain ⟨ha, x, hx⟩ := ih (outl - min outl d.length) (c + 1)
          (applyBuf T d) k1 d.length hnone (by omega)
          (by rw [hdlen]; omega)
        exact ⟨ha, ⟨x, by rw [hx, hT1]⟩⟩
    · simp only [Hash_dfFLoop, if_neg h0, hres] at hnone
      exact Option.noConfusion hnone

lemma Hash_dfF_err_eq (O : Nat → Bool) (H : List Nat → List Nat)
    (ds : DS) (outl : Nat) (T0 : List Nat) (k : Nat) :
    (Hash_dfF O H ds outl T0 k).err =
      (Hash_dfFLoop O H (uint2BS (outl * 8)) ds outl outl 1 T0 k 0).err := by
  unfold Hash_dfF
  rcases hE : (Hash_dfFLoop O H (uint2BS (outl * 8)) ds outl outl 1 T0
    k 0).err with _ | m <;> simp [hE]

lemma Hash_dfF_k_eq (O : Nat → Bool) (H : List Nat → List Nat)
    (ds : DS) (outl : Nat) (T0 : List Nat) (k : Nat) :
    (Hash_dfF O H ds outl T0 k).k =
      (Hash_dfFLoop O H (uint2BS (outl * 8)) ds outl outl 1 T0 k 0).k := by
  unfold Hash_dfF
  rcases hE : (Hash_dfFLoop O H (uint2BS (outl * 8)) ds outl outl 1 T0
    k 0).err with _ | m <;> simp [hE]

lemma Hash_dfF_ok (O : Nat → Bool) (H : List Nat → List Nat)
    (ds : DS) (outl : Nat) (T0 : List Nat) (k : Nat)
    (h : (Hash_dfF O H ds outl T0 k).err = none) :
    ∀ i, k ≤ i → i < (Hash_dfF O H ds outl T0 k).k → O i = true := by
  rw [Hash_dfF_err_eq] at h
  intro i h1 h2
  rw [Hash_dfF_k_eq] at h2
  exact Hash_dfFLoop_ok O H _ ds outl outl 1 T0 k 0 h i h1 h2

lemma Hash_dfF_err_msg (O : Nat → Bool) (H : List Nat → List Nat)
    (ds : DS) (outl : Nat) (T0 : List Nat) (k : Nat) (m : String)
    (h : (Hash_dfF O H ds outl T0 k).err = some m) : m ≠ "" := by
  rw [Hash_dfF_err_eq] at h
  exact Hash_dfFLoop_err O H _ ds outl outl 1 T0 k 0 m h

lemma Hash_dfF_T_success (O : Nat → Bool) (H : List Nat → List Nat)
    (ds : DS) (dl outl : Nat) (T0 : List Nat) (k : Nat)
    (hH : ∀ x, (H x).length = dl) (hdl : 0 < dl) (h1 : 1 ≤ outl)
    (h : (Hash_dfF O H ds outl T0 k).err = none) :
    (Hash_dfF O H ds outl T0 k).T = List.replicate dl 0 ++ T0.drop dl := by
  obtain ⟨hdL, x, hT⟩ := Hash_dfFLoop_T O H (uint2BS (outl * 8)) ds dl hH hdl
    outl outl 1 T0 k 0 (by rw [← Hash_dfF_err_eq]; exact h) h1 (le_refl _)
  unfold Hash_dfF
  rcases hE : (Hash_dfFLoop O H (uint2BS (outl * 8)) ds outl outl 1 T0
    k 0).err with _ | m
  · simp only [hE]
    rw [hdL, hT, ← hH x, List.drop_left]
  · rw [Hash_dfF_err_eq, hE] at h
    exact Option.noConfusion h

lemma Hash_dfF_first_fail (O : Nat → Bool) (H : List Nat → List Nat)
    (ds : DS) (outl : Nat) (T0 : List Nat) (k : Nat)
    (h : O k = false) (h1 : 1 ≤ outl) :
    Hash_dfF O H ds outl T0 k =
      ⟨[], T0, k + 1, some "Digest Init failed", 0⟩ := by
  rcases outl with _ | f
  · omega
  · have hfail : dfHashOnce O H
        (dsExtractList ([1 % 256] :: uint2BS ((f + 1) * 8) :: ds)) k =
        .fail "Digest Init failed" (k + 1) :=
      hashCallF_first_fail O H _ _ k h
    have hloop : Hash_dfFLoop O H (uint2BS ((f + 1) * 8)) ds (f + 1) (f + 1)
        1 T0 k 0 = ⟨[], T0, k + 1, some "Digest Init failed", 0⟩ := by
      simp [Hash_dfFLoop, hfail]
    unfold Hash_dfF
    rw [hloop]

/-- C7 counterexample: a run of `Hash_df` in which the first digest block
succeeds and the second block's `EVP_DigestInit` fails returns through a
digest-failure path with `T` still holding the first digest (`[7]`), not
zero: the claim that every return path clears `T` is false. -/
theorem C7_clear_cex :
    (Hash_dfF (fun k => decide (k < 5)) (fun _ => [7]) [[5]] 2 [0] 0).err ≠
      none ∧
    (Hash_dfF (fun k => decide (k < 5)) (fun _ => [7]) [[5]] 2 [0] 0).T ≠
      List.replicate 1 0 := by
  decide

/-- C7 (amended): `Hash_df` clears the scratch `T` (over the digest length)
before returning on the normal completion path only; a digest-failure
return path returns without clearing `T` — shown here for a failing first
`EVP_DigestInit`, which leaves `T` exactly as it was. -/
theorem C7_scratch_clear (O : Nat → Bool) (H : List Nat → List Nat)
    (ds : DS) (dl outl : Nat) (T0 : List Nat) (k : Nat)
    (hH : ∀ x, (H x).length = dl) (hdl : 0 < dl) (h1 : 1 ≤ outl) :
    ((Hash_dfF O H ds outl T0 k).err = none →
      (Hash_dfF O H ds outl T0 k).T = List.replicate dl 0 ++ T0.drop dl) ∧
    (O k = false →
      (Hash_dfF O H ds outl T0 k).err = some "Digest Init failed" ∧
      (Hash_dfF O H ds outl T0 k).T = T0) := by
  constructor
  · intro h
    exact Hash_dfF_T_success O H ds dl outl T0 k hH hdl h1 h
  · intro h
    rw [Hash_dfF_first_fail O H ds outl T0 k h h1]
    exact ⟨rfl, rfl⟩

/-- C7 witness: the cleared scratch after an all-success run, and the
untouched scratch after a failing first call. -/
theorem C7_scratch_clear_witness :
    (Hash_dfF (fun _ => true) (fun _ => [7]) [[5]] 2 [0] 0).T =
      List.replicate 1 0 ++ [0].drop 1 ∧
    (Hash_dfF (fun _ => false) (fun _ => [7]) [[5]] 2 [0] 0).err =
      some "Digest Init failed" ∧
    (Hash_dfF (fun _ => false) (fun _ => [7]) [[5]] 2 [0] 0).T = [0] :=
  ⟨(C7_scratch_clear (fun _ => true) (fun _ => [7]) [[5]] 1 2 [0] 0
      (fun _ => rfl) (by decide) (by decide)).1 (by decide),
   ((C7_scratch_clear (fun _ => false) (fun _ => [7]) [[5]] 1 2 [0] 0
      (fun _ => rfl) (by decide) (by decide)).2 rfl).1,
   ((C7_scratch_clear (fun _ => false) (fun _ => [7]) [[5]] 1 2 [0] 0
      (fun _ => rfl) (by decide) (by decide)).2 rfl).2⟩

/-- C8: teardown (the outer Uninstantiate, which is modeled from the spec
because the `Cln` dispatch is not under `src/`, composed with the source's
`SHA_Cleanup` method) zeroes `V`, `C`, `T` and `eBuf`, frees the digest
context, and sets the mode to UNINITIALISED; `SHA_Cleanup` itself frees the
digest context and returns the current state. -/
theorem C8_teardown (p : PRNGData) :
    (Uninstantiate p).V = List.replicate p.V.length 0 ∧
    (Uninstantiate p).C = List.replicate p.C.length 0 ∧
    (Uninstantiate p).T = List.replicate p.T.length 0 ∧
    (Uninstantiate p).eBuf = List.replicate p.eBuf.length 0 ∧
    (Uninstantiate p).mdCtx = false ∧
    (Uninstantiate p).state = .SP800_90UNINIT ∧
    (SHA_Cleanup p).1.mdCtx = false ∧
    (SHA_Cleanup p).2 = p.state :=
  ⟨rfl, rfl, rfl, rfl, rfl, rfl, rfl, rfl⟩

/-- Any primitive-call failure inside the post-mixing tail of `SHA_Generate`
poisons the state with a non-empty diagnostic and is returned. -/
lemma SHA_GenerateTail_spec (O : Nat → Bool) (H : List Nat → List Nat)
    (seedlen OBL : Nat) (rcBytes : List Nat) (blen : Nat)
    (p : PRNGData) (k : Nat)
    (hfail : failedIn O k (SHA_GenerateTail O H seedlen OBL rcBytes blen
      p k).2.2.2) :
    (SHA_GenerateTail O H seedlen OBL rcBytes blen p k).2.1.state =
      .SP800_90ERROR ∧
    (SHA_GenerateTail O H seedlen OBL rcBytes blen p k).2.1.error_reason
      ≠ "" ∧
    (SHA_GenerateTail O H seedlen OBL rcBytes blen p k).2.2.1 =
      .SP800_90ERROR := by
  unfold SHA_GenerateTail at hfail ⊢
  rcases hE : (hashgenF O H blen (applyBuf p.T p.V) p.eBuf blen k).err
    with _ | m
  · rcases hres : doHashF O H [[0x03], p.V]
      (hashgenF O H blen (applyBuf p.T p.V) p.eBuf blen k).k
      with ⟨d, k3⟩ | ⟨m2, k3⟩
    · exfalso
      simp only [hE, hres] at hfail
      rcases hfail with ⟨i, hi1, hi2, hOi⟩
      obtain ⟨_, _, hall2⟩ := hashCallF_ok_spec O H _ _ _ d k3 hres
      rcases lt_or_ge i
        ((hashgenF O H blen (applyBuf p.T p.V) p.eBuf blen k).k)
        with hx | hx
      · have := hashgenF_ok O H blen (applyBuf p.T p.V) p.eBuf blen k hE
          i hi1 hx
        rw [this] at hOi
        exact Bool.noConfusion hOi
      · have := hall2 i hx hi2
        rw [this] at hOi
        exact Bool.noConfusion hOi
    · obtain ⟨_, hmsg⟩ := hashCallF_fail_spec O H _ _ _ m2 k3 hres
      simp only [hE, hres]
      refine ⟨trivial, ?_, trivial⟩
      rcases hmsg with h | h | h <;> subst h <;> decide
  · simp only [hE]
    refine ⟨trivial, ?_, trivial⟩
    exact hashgenF_err O H blen (applyBuf p.T p.V) p.eBuf blen k m hE

/-- Any primitive-call failure inside `SHA_InstantiateF` poisons the state
with a non-empty diagnostic, which is also the returned state code. -/
lemma SHA_InstantiateF_spec (O : Nat → Bool) (H : List Nat → List Nat)
    (seedlen : Nat) (mdFound : Bool) (ein nonce person : List Nat)
    (p : PRNGData) (k : Nat)
    (hfail : failedIn O k
      (SHA_InstantiateF O H seedlen mdFound ein nonce person p k).2.2) :
    (SHA_InstantiateF O H seedlen mdFound ein nonce person p k).1.state =
      .SP800_90ERROR ∧
    (SHA_InstantiateF O H seedlen mdFound ein nonce person
      p k).1.error_reason ≠ "" ∧
    (SHA_InstantiateF O H seedlen mdFound ein nonce person p k).2.1 =
      .SP800_90ERROR := by
  cases mdFound
  case false =>
    exfalso
    rcases hfail with ⟨i, hi1, hi2, _⟩
    simp only [SHA_InstantiateF, Bool.false_eq_true, if_false] at hi2
    omega
  case true =>
    have hkeq : (SHA_InstantiateF O H seedlen true ein nonce person
        p k).2.2 =
        (Hash_dfF O H [[0x00], applyBuf (List.replicate seedlen 0)
          (Hash_dfF O H [ein, nonce, person] seedlen p.T k).out] seedlen
          (Hash_dfF O H [ein, nonce, person] seedlen p.T k).T
          (Hash_dfF O H [ein, nonce, person] seedlen p.T k).k).k := rfl
    have hstate : (SHA_InstantiateF O H seedlen true ein nonce person
        p k).1.state =
        (if (Hash_dfF O H [[0x00], applyBuf (List.replicate seedlen 0)
            (Hash_dfF O H [ein, nonce, person] seedlen p.T k).out] seedlen
            (Hash_dfF O H [ein, nonce, person] seedlen p.T k).T
            (Hash_dfF O H [ein, nonce, person] seedlen
              p.T k).k).err.isSome then SP800_90STATE.SP800_90ERROR
         else if (Hash_dfF O H [ein, nonce, person] seedlen
            p.T k).err.isSome then SP800_90STATE.SP800_90ERROR
         else p.state) := rfl
    have hreason : (SHA_InstantiateF O H seedlen true ein nonce person
        p k).1.error_reason =
        ((Hash_dfF O H [[0x00], applyBuf (List.replicate seedlen 0)
            (Hash_dfF O H [ein, nonce, person] seedlen p.T k).out] seedlen
            (Hash_dfF O H [ein, nonce, person] seedlen p.T k).T
            (Hash_dfF O H [ein, nonce, person] seedlen p.T k).k).err.getD
          ((Hash_dfF O H [ein, nonce, person] seedlen p.T k).err.getD
            p.error_reason)) := rfl
    have hret : (SHA_InstantiateF O H seedlen true ein nonce person
        p k).2.1 =
        (SHA_InstantiateF O H seedlen true ein nonce person p k).1.state :=
      rfl
    rw [hkeq] at hfail
    rw [hstate, hreason, hret, hstate]
    rcases hE2 : (Hash_dfF O H [[0x00], applyBuf (List.replicate seedlen 0)
        (Hash_dfF O H [ein, nonce, person] seedlen p.T k).out] seedlen
        (Hash_dfF O H [ein, nonce, person] seedlen p.T k).T
        (Hash_dfF O H [ein, nonce, person] seedlen p.T k).k).err
      with _ | m2
    · rcases hE1 : (Hash_dfF O H [ein, nonce, person] seedlen p.T k).err
        with _ | m1
      · exfalso
        rcases hfail with ⟨i, hi1, hi2, hOi⟩
        rcases lt_or_ge i
          ((Hash_dfF O H [ein, nonce, person] seedlen p.T k).k)
          with hx | hx
        · rw [Hash_dfF_ok O H [ein, nonce, person] seedlen p.T k hE1
            i hi1 hx] at hOi
          exact Bool.noConfusion hOi
        · rw [Hash_dfF_ok O H _ seedlen _ _ hE2 i hx hi2] at hOi
          exact Bool.noConfusion hOi
      · simp only [hE1, hE2, Option.isSome_some, Option.isSome_none,
          Option.getD_some, Option.getD_none, if_true, if_false]
        have hm1 := Hash_dfF_err_msg O H [ein, nonce, person] seedlen
          p.T k m1 hE1
        simp [hm1]
    · simp only [hE2, Option.isSome_some, if_true]
      have hm2 := Hash_dfF_err_msg O H _ seedlen _ _ m2 hE2
      simp [hm2]

/-- Any primitive-call failure inside `SHA_ReSeedF` poisons the state with a
non-empty diagnostic, which is also the returned state code. -/
lemma SHA_ReSeedF_spec (O : Nat → Bool) (H : List Nat → List Nat)
    (seedlen : Nat) (ein adata : List Nat) (p : PRNGData) (k : Nat)
    (hfail : failedIn O k
      (SHA_ReSeedF O H seedlen ein adata p k).2.2) :
    (SHA_ReSeedF O H seedlen ein adata p k).1.state = .SP800_90ERROR ∧
    (SHA_ReSeedF O H seedlen ein adata p k).1.error_reason ≠ "" ∧
    (SHA_ReSeedF O H seedlen ein adata p k).2.1 = .SP800_90ERROR := by
  have hkeq : (SHA_ReSeedF O H seedlen ein adata p k).2.2 =
      (Hash_dfF O H [[0x00], applyBuf p.V ((applyBuf p.C
        (Hash_dfF O H [[0x01], p.V, ein, adata] seedlen
          p.T k).out).take seedlen)] seedlen
        (Hash_dfF O H [[0x01], p.V, ein, adata] seedlen p.T k).T
        (Hash_dfF O H [[0x01], p.V, ein, adata] seedlen p.T k).k).k := rfl
  have hstate : (SHA_ReSeedF O H seedlen ein adata p k).1.state =
      (if (Hash_dfF O H [[0x00], applyBuf p.V ((applyBuf p.C
          (Hash_dfF O H [[0x01], p.V, ein, adata] seedlen
            p.T k).out).take seedlen)] seedlen
          (Hash_dfF O H [[0x01], p.V, ein, adata] seedlen p.T k).T
          (Hash_dfF O H [[0x01], p.V, ein, adata] seedlen
            p.T k).k).err.isSome then SP800_90STATE.SP800_90ERROR
       else if (Hash_dfF O H [[0x01], p.V, ein, adata] seedlen
          p.T k).err.isSome then SP800_90STATE.SP800_90ERROR
       else p.state) := rfl
  have hreason : (SHA_ReSeedF O H seedlen ein adata p k).1.error_reason =
      ((Hash_dfF O H [[0x00], applyBuf p.V ((applyBuf p.C
          (Hash_dfF O H [[0x01], p.V, ein, adata] seedlen
            p.T k).out).take seedlen)] seedlen
          (Hash_dfF O H [[0x01], p.V, ein, adata] seedlen p.T k).T
          (Hash_dfF O H [[0x01], p.V, ein, adata] seedlen
            p.T k).k).err.getD
        ((Hash_dfF O H [[0x01], p.V, ein, adata] seedlen p.T k).err.getD
          p.error_reason)) := rfl
  have hret : (SHA_ReSeedF O H seedlen ein adata p k).2.1 =
      (SHA_ReSeedF O H seedlen ein adata p k).1.state := rfl
  rw [hkeq] at hfail
  rw [hstate, hreason, hret, hstate]
  rcases hE2 : (Hash_dfF O H [[0x00], applyBuf p.V ((applyBuf p.C
      (Hash_dfF O H [[0x01], p.V, ein, adata] seedlen
        p.T k).out).take seedlen)] seedlen
      (Hash_dfF O H [[0x01], p.V, ein, adata] seedlen p.T k).T
      (Hash_dfF O H [[0x01], p.V, ein, adata] seedlen p.T k).k).err
    with _ | m2
  · rcases hE1 : (Hash_dfF O H [[0x01], p.V, ein, adata] seedlen
        p.T k).err with _ | m1
    · exfalso
      rcases hfail with ⟨i, hi1, hi2, hOi⟩
      rcases lt_or_ge i
        ((Hash_dfF O H [[0x01], p.V, ein, adata] seedlen p.T k).k)
        with hx | hx
      · rw [Hash_dfF_ok O H [[0x01], p.V, ein, adata] seedlen p.T k hE1
          i hi1 hx] at hOi
        exact Bool.noConfusion hOi
      · rw [Hash_dfF_ok O H _ seedlen _ _ hE2 i hx hi2] at hOi
        exact Bool.noConfusion hOi
    · simp only [hE1, hE2, Option.isSome_some, Option.isSome_none,
        Option.getD_some, Option.getD_none, if_true, if_false]
      have hm1 := Hash_dfF_err_msg O H [[0x01], p.V, ein, adata] seedlen
        p.T k m1 hE1
      simp [hm1]
  · simp only [hE2, Option.isSome_some, if_true]
    have hm2 := Hash_dfF_err_msg O H _ seedlen _ _ m2 hE2
    simp [hm2]

/-- Any primitive-call failure inside `SHA_GenerateF` poisons the state with
a non-empty diagnostic, which is also the returned state code. -/
lemma SHA_GenerateF_spec (O : Nat → Bool) (H : List Nat → List Nat)
    (seedlen OBL : Nat) (rcBytes : List Nat) (adata : Option (List Nat))
    (adatal blen : Nat) (p : PRNGData) (k : Nat)
    (hfail : failedIn O k
      (SHA_GenerateF O H seedlen OBL rcBytes adata adatal blen p k).2.2.2) :
    (SHA_GenerateF O H seedlen OBL rcBytes adata adatal blen p k).2.1.state
      = .SP800_90ERROR ∧
    (SHA_GenerateF O H seedlen OBL rcBytes adata adatal blen
      p k).2.1.error_reason ≠ "" ∧
    (SHA_GenerateF O H seedlen OBL rcBytes adata adatal blen p k).2.2.1 =
      .SP800_90ERROR := by
  rcases adata with _ | ad
  · exact SHA_GenerateTail_spec O H seedlen OBL rcBytes blen p k hfail
  · have hun : SHA_GenerateF O H seedlen OBL rcBytes (some ad) adatal blen
        p k =
        (if adatal ≠ 0 then
          (match doHashF O H [[0x02], p.V, ad.take adatal] k with
           | HashCallRes.fail m k1 =>
             ([], { p with
                    state := SP800_90STATE.SP800_90ERROR
                    error_reason := m }, SP800_90STATE.SP800_90ERROR, k1)
           | HashCallRes.ok w k1 =>
             SHA_GenerateTail O H seedlen OBL rcBytes blen
               { p with
                 T := applyBuf p.T w
                 V := Add p.V ((applyBuf p.T w).take OBL) } k1)
         else SHA_GenerateTail O H seedlen OBL rcBytes blen p k) := rfl
    by_cases ha : adatal ≠ 0
    · rcases hres : doHashF O H [[0x02], p.V, ad.take adatal] k
        with ⟨w, k1⟩ | ⟨m, k1⟩
      · rw [hun, if_pos ha, hres] at hfail ⊢
        obtain ⟨hk1, _, hall⟩ := hashCallF_ok_spec O H _ _ k w k1 hres
        have hfail2 : failedIn O k (SHA_GenerateTail O H seedlen OBL
            rcBytes blen { p with
              T := applyBuf p.T w
              V := Add p.V ((applyBuf p.T w).take OBL) } k1).2.2.2 := hfail
        rcases hfail2 with ⟨i, hi1, hi2, hOi⟩
        rcases lt_or_ge i k1 with hx | hx
        · exfalso
          rw [hall i hi1 hx] at hOi
          exact Bool.noConfusion hOi
        · exact SHA_GenerateTail_spec O H seedlen OBL rcBytes blen _ k1
            ⟨i, hx, hi2, hOi⟩
      · rw [hun, if_pos ha, hres]
        obtain ⟨_, hmsg⟩ := hashCallF_fail_spec O H _ _ k m k1 hres
        refine ⟨rfl, ?_, rfl⟩
        show m ≠ ""
        rcases hmsg with h | h | h <;> subst h <;> decide
    · rw [hun, if_neg ha] at hfail ⊢
      exact SHA_GenerateTail_spec O H seedlen OBL rcBytes blen p k hfail

/-- C6: For every Instantiate, Reseed or Generate call in which some digest
primitive call (init, update or finalise) returns non-success, the instance
state is set to `SP800_90ERROR` with a non-empty diagnostic `error_reason`,
and the operation returns that ERROR state code to the caller (errors are
returned, never thrown). -/
theorem C6_digest_failure_poisons (O : Nat → Bool) (H : List Nat → List Nat)
    (seedlen OBL : Nat) (mdFound : Bool) (ein nonce person radata : List Nat)
    (rcBytes : List Nat) (adata : Option (List Nat)) (adatal blen : Nat)
    (p : PRNGData) (k : Nat) :
    (failedIn O k
        (SHA_InstantiateF O H seedlen mdFound ein nonce person p k).2.2 →
      (SHA_InstantiateF O H seedlen mdFound ein nonce person p k).1.state =
        .SP800_90ERROR ∧
      (SHA_InstantiateF O H seedlen mdFound ein nonce person
        p k).1.error_reason ≠ "" ∧
      (SHA_InstantiateF O H seedlen mdFound ein nonce person p k).2.1 =
        .SP800_90ERROR) ∧
    (failedIn O k (SHA_ReSeedF O H seedlen ein radata p k).2.2 →
      (SHA_ReSeedF O H seedlen ein radata p k).1.state = .SP800_90ERROR ∧
      (SHA_ReSeedF O H seedlen ein radata p k).1.error_reason ≠ "" ∧
      (SHA_ReSeedF O H seedlen ein radata p k).2.1 = .SP800_90ERROR) ∧
    (failedIn O k
        (SHA_GenerateF O H seedlen OBL rcBytes adata adatal blen
          p k).2.2.2 →
      (SHA_GenerateF O H seedlen OBL rcBytes adata adatal blen
        p k).2.1.state = .SP800_90ERROR ∧
      (SHA_GenerateF O H seedlen OBL rcBytes adata adatal blen
        p k).2.1.error_reason ≠ "" ∧
      (SHA_GenerateF O H seedlen OBL rcBytes adata adatal blen
        p k).2.2.1 = .SP800_90ERROR) :=
  ⟨fun h => SHA_InstantiateF_spec O H seedlen mdFound ein nonce person p k h,
   fun h => SHA_ReSeedF_spec O H seedlen ein radata p k h,
   fun h => SHA_GenerateF_spec O H seedlen OBL rcBytes adata adatal blen
     p k h⟩

/-- C6 witness: the all-failing oracle at concrete inputs; each operation's
first `EVP_DigestInit` fails, the state is poisoned and returned. -/
theorem C6_digest_failure_poisons_witness :
    ((SHA_InstantiateF (fun _ => false) (fun _ => [7]) 2 true [1] [2] [3]
        ⟨[0, 0], [0, 0], [0, 0], [0], true, .SP800_90RUN, ""⟩ 0).1.state =
      .SP800_90ERROR ∧
     (SHA_InstantiateF (fun _ => false) (fun _ => [7]) 2 true [1] [2] [3]
        ⟨[0, 0], [0, 0], [0, 0], [0], true, .SP800_90RUN,
          ""⟩ 0).1.error_reason ≠ "" ∧
     (SHA_InstantiateF (fun _ => false) (fun _ => [7]) 2 true [1] [2] [3]
        ⟨[0, 0], [0, 0], [0, 0], [0], true, .SP800_90RUN, ""⟩ 0).2.1 =
      .SP800_90ERROR) ∧
    ((SHA_ReSeedF (fun _ => false) (fun _ => [7]) 2 [1] [2]
        ⟨[0, 0], [0, 0], [0, 0], [0], true, .SP800_90RUN, ""⟩ 0).1.state =
      .SP800_90ERROR ∧
     (SHA_ReSeedF (fun _ => false) (fun _ => [7]) 2 [1] [2]
        ⟨[0, 0], [0, 0], [0, 0], [0], true, .SP800_90RUN,
          ""⟩ 0).1.error_reason ≠ "" ∧
     (SHA_ReSeedF (fun _ => false) (fun _ => [7]) 2 [1] [2]
        ⟨[0, 0], [0, 0], [0, 0], [0], true, .SP800_90RUN, ""⟩ 0).2.1 =
      .SP800_90ERROR) ∧
    ((SHA_GenerateF (fun _ => false) (fun _ => [7]) 2 1 [0, 0, 0, 1] none 0
        0 ⟨[0, 0], [0, 0], [0, 0], [0], true, .SP800_90RUN, ""⟩ 0).2.1.state
      = .SP800_90ERROR ∧
     (SHA_GenerateF (fun _ => false) (fun _ => [7]) 2 1 [0, 0, 0, 1] none 0
        0 ⟨[0, 0], [0, 0], [0, 0], [0], true, .SP800_90RUN,
          ""⟩ 0).2.1.error_reason ≠ "" ∧
     (SHA_GenerateF (fun _ => false) (fun _ => [7]) 2 1 [0, 0, 0, 1] none 0
        0 ⟨[0, 0], [0, 0], [0, 0], [0], true, .SP800_90RUN, ""⟩ 0).2.2.1 =
      .SP800_90ERROR) :=
  ⟨(C6_digest_failure_poisons (fun _ => false) (fun _ => [7]) 2 1 true
      [1] [2] [3] [2] [0, 0, 0, 1] none 0 0
      ⟨[0, 0], [0, 0], [0, 0], [0], true, .SP800_90RUN, ""⟩ 0).1
      ⟨0, Nat.le_refl 0, by decide, rfl⟩,
   (C6_digest_failure_poisons (fun _ => false) (fun _ => [7]) 2 1 true
      [1] [2] [3] [2] [0, 0, 0, 1] none 0 0
      ⟨[0, 0], [0, 0], [0, 0], [0], true, .SP800_90RUN, ""⟩ 0).2.1
      ⟨0, Nat.le_refl 0, by decide, rfl⟩,
   (C6_digest_failure_poisons (fun _ => false) (fun _ => [7]) 2 1 true
      [1] [2] [3] [2] [0, 0, 0, 1] none 0 0
      ⟨[0, 0], [0, 0], [0, 0], [0], true, .SP800_90RUN, ""⟩ 0).2.2
      ⟨0, Nat.le_refl 0, by decide, rfl⟩⟩

end SP80090
